import Mathlib

/-!
# Verification of the DanVentures intraday trading core

Shallow embedding of the repository sources:

* `strategies/orderflow_liquidity_trap.py` — the per-symbol strategy engine
  (`OrderFlowLiquidityTrap`): rolling windows, spread/jump filters, warm-up
  gate, exit conditions, signal composition, entry/exit actions.
* `core/stream.py` — the `TickBus` publish/subscribe dispatcher.
* `web/app.py` — the config-override store (`_coerce_types`,
  `_effective_config`, `strategy_config_post`) and the square-off routes.

Python floats are modelled as exact rationals (`ℚ`); Python `None` becomes
`Option`; Python truthiness is modelled explicitly where the source relies on
it (`if not tok`, `x or y`, ...).  Gateway (broker) calls are modelled by an
explicit outcome parameter: the engine never inspects anything about a call
except whether it raised and, for entries, the returned order id.
-/

-- The Batteries rational primitives are `@[irreducible]`, which blocks the
-- elaborator-side evaluation done by `decide` on concrete engine states; the
-- kernel itself reduces them fine.  Restore reducibility locally.
attribute [local semireducible] Rat.add Rat.sub Rat.mul Rat.inv Rat.ofScientific

namespace DanV

/-- Python `a or b` on numbers: `a` unless it is falsy (zero). -/
def pyOrQ (a b : ℚ) : ℚ := if a = 0 then b else a

/-- Python `a or b` where `a` may be `None` (`none`) or a number (zero falsy). -/
def pyOrQOpt (a b : Option ℚ) : Option ℚ :=
  match a with
  | some q => if q = 0 then b else some q
  | none => b

/-- Truthiness of a number (`if x:`). -/
def truthyQ (q : ℚ) : Bool := q != 0

/-- Truthiness of an optional number (`None` and `0.0` are falsy). -/
def truthyQOpt (o : Option ℚ) : Bool :=
  match o with
  | some q => q != 0
  | none => false

/-- Append to a `deque(maxlen := m)`: oldest entries are evicted from the
front once the length exceeds `m`. -/
def pushW (m : ℕ) (xs : List ℚ) (x : ℚ) : List ℚ :=
  let ys := xs ++ [x]
  ys.drop (ys.length - m)

/-- One depth level `{price, quantity}` of the order book. -/
structure Level where
  price : ℚ
  quantity : ℚ
deriving DecidableEq

/-- A market tick as consumed by `on_tick` (after `_safe_float` parsing:
`last_price` is `none` when missing or unparseable). -/
structure Tick where
  instrument_token : Option ℕ
  last_price : Option ℚ
  last_traded_quantity : Option ℚ
  last_quantity : Option ℚ
  depth_buy : List Level
  depth_sell : List Level
deriving DecidableEq

/-- Wall-clock instant: hour/minute/second of day (for the session filters)
plus an epoch timestamp (for cooldown and the time stop). -/
structure DTime where
  hour : ℕ
  minute : ℕ
  sec : ℚ
  ts : ℚ
deriving DecidableEq

/-- Seconds since midnight of a `DTime`. -/
def secOfDay (t : DTime) : ℚ := (t.hour : ℚ) * 3600 + (t.minute : ℚ) * 60 + t.sec

/-- `_in_range(t, "HH:MM")` from `_session_filters_pass`. -/
def inRangeT (t : DTime) (hm : ℕ × ℕ) : Bool :=
  decide (t.hour > hm.1) || (decide (t.hour = hm.1) && decide (t.minute ≥ hm.2))

/-- `_before(t, "HH:MM")` from `_session_filters_pass`. -/
def beforeT (t : DTime) (hm : ℕ × ℕ) : Bool :=
  decide (t.hour < hm.1) || (decide (t.hour = hm.1) && decide (t.minute < hm.2))

/-- Typed view of the strategy configuration dictionary (`oflt_config.CONFIG`
plus the keys read with `cfg.get`).  Time-of-day strings `"HH:MM"` are modelled
as already-parsed `(hour, minute)` pairs; the two logging flags only control
log output and are omitted. -/
structure Cfg where
  momentum_window : ℕ
  delta_window : ℕ
  imbalance_window : ℕ
  depth_levels : ℕ
  imbalance_threshold_long : ℚ
  imbalance_threshold_short : ℚ
  depth_ratio_min_long : ℚ
  depth_ratio_max_short : ℚ
  delta_trend_ticks : ℕ
  require_hh_hl_for_long : Bool
  require_ll_lh_for_short : Bool
  use_vwap_filter : Bool
  vwap_slope_window : ℕ
  absorption_window : ℕ
  absorption_min_traded_qty : ℚ
  absorption_max_price_range_bps : ℚ
  skip_first_minutes : ℚ
  lunch_skip_start : ℕ × ℕ
  lunch_skip_end : ℕ × ℕ
  use_best_windows : Bool
  best_windows : List ((ℕ × ℕ) × (ℕ × ℕ))
  max_spread_pct : ℚ
  max_tick_jump_bps : ℚ
  dry_run : Bool
  qty : ℕ
  stoploss_pct : ℚ
  cooldown_seconds : ℚ
  max_trades_per_session : ℕ
  time_stop_seconds : ℚ
  target_pct : ℚ
  tick_size : ℚ
deriving DecidableEq

/-- The position side strings `"LONG"`/`"SHORT"`. -/
inductive Pos where
  | LONG
  | SHORT
deriving DecidableEq

/-- Order side strings `"BUY"`/`"SELL"`. -/
inductive Side where
  | BUY
  | SELL
deriving DecidableEq

/-- Mutable state of one `OrderFlowLiquidityTrap` instance.  The six window
capacities are the `int(self.cfg[...])` snapshots taken in `__init__` (they are
the `maxlen`s of the deques and are never re-read from `cfg`). -/
structure Engine where
  cfg : Cfg
  token : Option ℕ
  window_mom : ℕ
  window_delta : ℕ
  window_imb : ℕ
  depth_levels : ℕ
  absCap : ℕ
  vwapCap : ℕ
  prices : List ℚ
  delta_raw : List ℚ
  imbalance_raw : List ℚ
  abs_range_prices : List ℚ
  abs_qty : List ℚ
  cum_pv : ℚ
  cum_v : ℚ
  vwap_history : List ℚ
  position : Option Pos
  entry_price : Option ℚ
  parent_order_id : Option String
  last_entry_ts : Option ℚ
  trades_taken : ℕ
deriving DecidableEq

/-- Outcome of the gateway `place_cover_order` call: the parsed
`resp.get("order_id")` on success, or an exception. -/
inductive GwEnter where
  | gwOk (oid : Option String)
  | gwRaise
deriving DecidableEq

/-- Behaviour of the gateway during one tick: the entry-call outcome and
whether `exit_cover_order` raises. -/
structure Gw where
  enter : GwEnter
  exitFails : Bool
deriving DecidableEq

/-- `str(resp.get("order_id") or "")`. -/
def pyOrStr (o : Option String) : String :=
  match o with
  | none => ""
  | some s => if s = "" then "" else s

/-- `sum(levels[i]["quantity"] for i in range(min(n, len(levels))))`. -/
def sumQty (levels : List Level) (n : ℕ) : ℚ :=
  ((levels.take n).map (fun l => l.quantity)).sum

/-- `all(s[i] < s[i+1] for i in range(len(s)-1))`. -/
def pairwiseLt : List ℚ → Bool
  | [] => true
  | [_] => true
  | a :: b :: t => decide (a < b) && pairwiseLt (b :: t)

/-- `all(s[i] > s[i+1] for i in range(len(s)-1))`. -/
def pairwiseGt : List ℚ → Bool
  | [] => true
  | [_] => true
  | a :: b :: t => decide (a > b) && pairwiseGt (b :: t)

/-- Python `xs[-k:]` (note `xs[-0:]` is the whole list). -/
def pyLastK (xs : List ℚ) (k : ℕ) : List ℚ :=
  if k = 0 then xs else xs.drop (xs.length - k)

/-- `_is_strictly_increasing(seq, k)`. -/
def isStrictlyIncreasing (xs : List ℚ) (k : ℕ) : Bool :=
  if xs.length < k then false else pairwiseLt (pyLastK xs k)

/-- `_is_strictly_decreasing(seq, k)`. -/
def isStrictlyDecreasing (xs : List ℚ) (k : ℕ) : Bool :=
  if xs.length < k then false else pairwiseGt (pyLastK xs k)

/-- `_is_hh_hl(prices)`. -/
def isHHHL (prices : List ℚ) : Bool :=
  if prices.length < 4 then false
  else
    match pyLastK prices 4 with
    | [p0, p1, p2, p3] =>
        decide (p1 > p0) && decide (p2 > p1) && decide (p3 > p2) &&
        decide (min p1 (min p2 p3) > p0)
    | _ => false

/-- `_is_ll_lh(prices)`. -/
def isLLLH (prices : List ℚ) : Bool :=
  if prices.length < 4 then false
  else
    match pyLastK prices 4 with
    | [p0, p1, p2, p3] =>
        decide (p1 < p0) && decide (p2 < p1) && decide (p3 < p2) &&
        decide (max p1 (max p2 p3) < p0)
    | _ => false

/-- Python `max(xs)` (the source only evaluates it on non-empty windows). -/
def pyMax : List ℚ → ℚ
  | [] => 0
  | h :: t => t.foldl max h

/-- Python `min(xs)`. -/
def pyMin : List ℚ → ℚ
  | [] => 0
  | h :: t => t.foldl min h

/-- `_absorption_ok()`.  Note it re-reads `self.cfg["absorption_window"]`
(live) while the deque capacity `absCap` was fixed at construction. -/
def absorptionOk (e : Engine) : Bool × Bool :=
  if e.abs_range_prices.length < max 3 e.cfg.absorption_window then (false, false)
  else
    let rng := pyMax e.abs_range_prices - pyMin e.abs_range_prices
    let mid := (pyMax e.abs_range_prices + pyMin e.abs_range_prices) / 2
    let rng_bps := if truthyQ mid then rng / mid * 10000 else 0
    let traded := e.abs_qty.sum
    let ok := decide (traded ≥ e.cfg.absorption_min_traded_qty) &&
              decide (rng_bps ≤ e.cfg.absorption_max_price_range_bps)
    (ok, ok)

/-- `_imbalance_against_position()` (only called while in a position; the
Python `else` branch corresponds to a SHORT position). -/
def imbalanceAgainstPosition (e : Engine) : Bool :=
  match e.imbalance_raw with
  | [] => false
  | _ =>
    let imb_avg := e.imbalance_raw.sum / (e.imbalance_raw.length : ℚ)
    if e.position = some Pos.LONG then decide (imb_avg ≤ e.cfg.imbalance_threshold_short)
    else decide (imb_avg ≥ e.cfg.imbalance_threshold_long)

/-- `_delta_trend_against_position(k)`. -/
def deltaTrendAgainstPosition (e : Engine) (k : ℕ) : Bool :=
  if e.delta_raw.length < k then false
  else
    let s := pyLastK e.delta_raw k
    let inc := pairwiseLt s
    let dec := pairwiseGt s
    (decide (e.position = some Pos.LONG) && dec) ||
    (decide (e.position = some Pos.SHORT) && inc)

/-- Which exit condition of `_should_exit_now` fires (the composite rule
checks target, then time stop, then opposite flow, then depth flip; the
first true condition wins). -/
inductive ExitReason where
  | target
  | timeStop
  | oppositeFlow
  | depthFlip
deriving DecidableEq

/-- `_should_exit_now(lp, bid_qty, ask_qty)`, refined to report which
condition fired; the Boolean result of the source is `isSome` of this. -/
def shouldExitReason (e : Engine) (now : DTime) (lp bid_qty ask_qty : ℚ) :
    Option ExitReason :=
  let tgt := e.cfg.target_pct
  let targetHit : Bool :=
    match e.entry_price with
    | some ep =>
        truthyQ ep &&
        (let ret := if e.position = some Pos.LONG then (lp - ep) / ep else (ep - lp) / ep
         decide (ret ≥ tgt))
    | none => false
  if targetHit then some ExitReason.target
  else
    -- `ts = float(self.cfg.get("time_stop_seconds", 0)) or 0.0`
    let ts := pyOrQ e.cfg.time_stop_seconds 0
    if decide (ts > 0) && truthyQOpt e.last_entry_ts &&
       decide (now.ts - e.last_entry_ts.getD 0 ≥ ts) then some ExitReason.timeStop
    else if imbalanceAgainstPosition e ||
            deltaTrendAgainstPosition e e.cfg.delta_trend_ticks then
      some ExitReason.oppositeFlow
    else
      let dr := if truthyQ bid_qty && truthyQ ask_qty then bid_qty / max 1 ask_qty else 1
      if decide (e.position = some Pos.LONG) && decide (dr < e.cfg.depth_ratio_max_short) then
        some ExitReason.depthFlip
      else if decide (e.position = some Pos.SHORT) && decide (dr > e.cfg.depth_ratio_min_long) then
        some ExitReason.depthFlip
      else none

/-- `_session_filters_pass()`. -/
def sessionFiltersPass (cfg : Cfg) (now : DTime) : Bool :=
  -- (now - mkt_open).total_seconds() with mkt_open = 09:15:00 of the same day
  if decide (secOfDay now - (9 * 3600 + 15 * 60 : ℚ) < cfg.skip_first_minutes * 60) then false
  else if inRangeT now cfg.lunch_skip_start && beforeT now cfg.lunch_skip_end then false
  else if cfg.use_best_windows then
    cfg.best_windows.any (fun w => inRangeT now w.1 && beforeT now w.2)
  else true

/-- `_vwap_filter_pass(last_price)`. -/
def vwapFilterPass (e : Engine) (lp : ℚ) : Bool :=
  match e.vwap_history with
  | [] => false
  | h :: t =>
    let vw := ((h :: t).getLast?).getD 0
    let slope_up := decide (vw > h)
    let slope_dn := decide (vw < h)
    (decide (lp > vw) && slope_up) || (decide (lp < vw) && slope_dn)

/-- `_signals(lp, bid_qty, ask_qty)` (the `reasons` list is log-only and
omitted).  The `(absorp_ok or True)` conjuncts reproduce the no-op absorption
gate of the source. -/
def signalsFn (e : Engine) (lp bid_qty ask_qty : ℚ) : Bool × Bool :=
  let hh_hl := if e.cfg.require_hh_hl_for_long then isHHHL e.prices else true
  let ll_lh := if e.cfg.require_ll_lh_for_short then isLLLH e.prices else true
  let delta_inc := isStrictlyIncreasing e.delta_raw e.cfg.delta_trend_ticks
  let delta_dec := isStrictlyDecreasing e.delta_raw e.cfg.delta_trend_ticks
  let imb_avg := e.imbalance_raw.sum / (e.imbalance_raw.length : ℚ)
  let dr := if truthyQ bid_qty && truthyQ ask_qty then bid_qty / max 1 ask_qty else 1
  let ab := absorptionOk e
  let vw := (e.vwap_history.getLast?).getD lp
  let vwap_up :=
    if e.vwap_history.length ≥ 2 then decide (vw > e.vwap_history.headD 0) else true
  let vwap_dn :=
    if e.vwap_history.length ≥ 2 then decide (vw < e.vwap_history.headD 0) else true
  let long_ok :=
    hh_hl && delta_inc &&
    decide (imb_avg ≥ e.cfg.imbalance_threshold_long) &&
    decide (dr ≥ e.cfg.depth_ratio_min_long) &&
    (!e.cfg.use_vwap_filter || (decide (lp > vw) && vwap_up)) &&
    (ab.1 || true)
  let short_ok :=
    ll_lh && delta_dec &&
    decide (imb_avg ≤ e.cfg.imbalance_threshold_short) &&
    decide (dr ≤ e.cfg.depth_ratio_max_short) &&
    (!e.cfg.use_vwap_filter || (decide (lp < vw) && vwap_dn)) &&
    (ab.2 || true)
  (long_ok, short_ok)

/-- Reset of the three position fields (used by entry failure, exit and
square-off). -/
def clearPosition (e : Engine) : Engine :=
  { e with position := none, entry_price := none, parent_order_id := none }

/-- A Python exception escaping a modelled call. -/
inductive PyError where
  | typeError
deriving DecidableEq

/-- The bound-method call `self.round_to_tick(raw_trig, tick_size)` at line
279.  `round_to_tick` (line 53) is declared inside the class body without
`self` and without `@staticmethod`, so it is still a descriptor: the bound
call passes three positional arguments (`self`, `raw_trig`, `tick_size`) to a
two-parameter function and raises `TypeError` for every input — its rounding
body is never executed. -/
def round_to_tick_boundCall (_raw_trig _tick_size : ℚ) : Except PyError ℚ :=
  Except.error PyError.typeError

/-- `_enter(side, price)` (lines 275-311).  Its fourth statement is the
bound call modelled by `round_to_tick_boundCall`, which raises `TypeError`
unconditionally — before the dry-run branch, before any mutation of
`position`/`entry_price`/`last_entry_ts`/`trades_taken` and before any
gateway call.  `_enter` is therefore a raising state no-op; the returned
error escapes `on_tick` (which has no handler) and is caught and logged by
`TickBus.publish`.  The `Except.ok` branch below transcribes the remaining
method body (lines 280-311): it is dead code in the source and in the
model. -/
def enterAction (e : Engine) (side : Side) (price : ℚ) (now : DTime) (g : GwEnter) :
    Engine × Option PyError :=
  let sl_pct := e.cfg.stoploss_pct
  let raw_trig := if side = Side.BUY then price * (1 - sl_pct) else price * (1 + sl_pct)
  let tick_size := e.cfg.tick_size
  match round_to_tick_boundCall raw_trig tick_size with
  | Except.error err => (e, some err)
  | Except.ok _sl_trig =>
    let e1 : Engine :=
      { e with
        position := some (if side = Side.BUY then Pos.LONG else Pos.SHORT),
        entry_price := some price,
        last_entry_ts := some now.ts,
        trades_taken := e.trades_taken + 1 }
    if e.cfg.dry_run then ({ e1 with parent_order_id := some "DRY_PARENT" }, none)
    else
      match g with
      | GwEnter.gwOk oid => ({ e1 with parent_order_id := some (pyOrStr oid) }, none)
      | GwEnter.gwRaise =>
          -- except-branch: reset state on failure
          ({ e1 with position := none, entry_price := none, parent_order_id := none },
           none)

/-- Which branch of `_exit` ran (log-level observation). -/
inductive ExitCallResult where
  | dryCleared
  | sent
  | noParentId
  | gwError
deriving DecidableEq

/-- `_exit(reason)`.  In live mode the body is a try/except/finally whose
`finally` clause clears the local position state on every path, including the
`RuntimeError` raised (and caught) when `parent_order_id` is falsy. -/
def exitAction (e : Engine) (exitFails : Bool) : Engine × Option ExitCallResult :=
  match e.position with
  | none => (e, none)
  | some _ =>
    if e.cfg.dry_run then (clearPosition e, some ExitCallResult.dryCleared)
    else
      match e.parent_order_id with
      | none => (clearPosition e, some ExitCallResult.noParentId)
      | some pid =>
        if pid = "" then (clearPosition e, some ExitCallResult.noParentId)
        else if exitFails then (clearPosition e, some ExitCallResult.gwError)
        else (clearPosition e, some ExitCallResult.sent)

/-- Which branch of the square-off route body ran for one strategy. -/
inductive SquareOffResult where
  | skippedFlat
  | dryExited
  | exited
  | errNoParent
  | gwError
deriving DecidableEq

/-- The per-strategy body of `square_off_all` (identical to
`square_off_symbol`): unlike `_exit`, the state-clearing statements sit inside
the `try` block after the gateway call, so an exception skips them. -/
def squareOffOne (e : Engine) (exitFails : Bool) : Engine × SquareOffResult :=
  match e.position with
  | none => (e, SquareOffResult.skippedFlat)
  | some _ =>
    if e.cfg.dry_run then (clearPosition e, SquareOffResult.dryExited)
    else
      match e.parent_order_id with
      | none => (clearPosition e, SquareOffResult.errNoParent)
      | some pid =>
        if pid = "" then (clearPosition e, SquareOffResult.errNoParent)
        else if exitFails then (e, SquareOffResult.gwError)
        else (clearPosition e, SquareOffResult.exited)

/-- One diagnostic snapshot as emitted by `_emit_diag` — restricted to the
decision and the filter/signal flags; the rounded telemetry metrics
(`imb_avg`, `depth_ratio`, `delta_slope`, `momentum`, `absorption`, prices)
carry no control-flow information and are omitted. -/
structure Diag where
  action : String
  spread_ok : Bool
  jump_ok : Bool
  session_ok : Option Bool
  vwap_ok : Option Bool
  long_ok : Bool
  short_ok : Bool
deriving DecidableEq

/-- Helper mirroring an `_emit_diag(...)` call site. -/
def mkDiag (action : String) (spread_ok jump_ok : Bool)
    (session_ok vwap_ok : Option Bool) (long_ok short_ok : Bool) : Diag :=
  ⟨action, spread_ok, jump_ok, session_ok, vwap_ok, long_ok, short_ok⟩

/-- Which control path `on_tick` took (the Python method returns `None`; this
is the observable classification of its side effects). -/
inductive TickOutcome where
  | ignored
  | rejectedSpread (exited : Bool)
  | rejectedJump (exited : Bool)
  | warmup
  | exitDecision (r : ExitReason)
  | holdInPosition
  | holdSession
  | holdVwap
  | holdCooldown
  | holdCap
  | enterLong
  | enterShort
  | hold
deriving DecidableEq

/-- The tick passed the ownership, parse, spread and jump checks and reached
the rolling updates. -/
def TickOutcome.isAccepted : TickOutcome → Bool
  | TickOutcome.ignored => false
  | TickOutcome.rejectedSpread _ => false
  | TickOutcome.rejectedJump _ => false
  | _ => true

/-- `best_bid` from `_best_depth(depth)`: the price of the first buy level. -/
def bestBid (t : Tick) : Option ℚ := (t.depth_buy.head?).map (fun l => l.price)

/-- `best_ask` from `_best_depth(depth)`: the price of the first sell level. -/
def bestAsk (t : Tick) : Option ℚ := (t.depth_sell.head?).map (fun l => l.price)

/-- `spread_pct = (best_ask - best_bid) / mid if mid else 0.0`. -/
def spreadPctOf (bid ask : ℚ) : ℚ :=
  let mid := (bid + ask) / 2
  if truthyQ mid then (ask - bid) / mid else 0

/-- `jump_bps = abs(lp - prices[-1]) / prices[-1] * 10000`. -/
def jumpBps (lp prev : ℚ) : ℚ := |lp - prev| / prev * 10000

/-- The "Rolling updates" block of `on_tick` (lines appending to every window
and updating the VWAP accumulator); also returns the `bid_qty`/`ask_qty` depth
sums used afterwards. -/
def applyUpdates (e : Engine) (t : Tick) (lp : ℚ) : Engine × ℚ × ℚ :=
  let bb := bestBid t
  let ba := bestAsk t
  -- ltq = _safe_float(tick.get("last_traded_quantity") or tick.get("last_quantity") or 1, 1.0)
  let ltq := (pyOrQOpt t.last_traded_quantity (pyOrQOpt t.last_quantity (some 1))).getD 1
  let prices1 := pushW e.window_mom e.prices lp
  let buyInit : ℚ := if truthyQOpt ba && decide (lp ≥ ba.getD 0) then ltq else 0
  let sellInit : ℚ :=
    if !(truthyQOpt ba && decide (lp ≥ ba.getD 0)) &&
       (truthyQOpt bb && decide (lp ≤ bb.getD 0)) then ltq else 0
  let delta1 := pushW e.window_delta e.delta_raw (buyInit - sellInit)
  let bid_qty := sumQty t.depth_buy e.depth_levels
  let ask_qty := sumQty t.depth_sell e.depth_levels
  let denom := pyOrQ (bid_qty + ask_qty) 1
  let imb1 := pushW e.window_imb e.imbalance_raw ((bid_qty - ask_qty) / denom)
  let absP1 := pushW e.absCap e.abs_range_prices lp
  let absQ1 := pushW e.absCap e.abs_qty ltq
  let cum_pv1 := e.cum_pv + lp * ltq
  let cum_v1 := e.cum_v + ltq
  let vwap := if decide (cum_v1 > 0) then cum_pv1 / cum_v1 else lp
  let vh1 := pushW e.vwapCap e.vwap_history vwap
  ({ e with
      prices := prices1, delta_raw := delta1, imbalance_raw := imb1,
      abs_range_prices := absP1, abs_qty := absQ1,
      cum_pv := cum_pv1, cum_v := cum_v1, vwap_history := vh1 },
   bid_qty, ask_qty)

/-- The "Need minimum data" warm-up gate condition of `on_tick`: note the
price window is compared against `max(5, self.window_mom)`, not against its
configured capacity. -/
def warmupShort (e : Engine) : Bool :=
  decide (e.prices.length < max 5 e.window_mom) ||
  decide (e.delta_raw.length < e.window_delta) ||
  decide (e.imbalance_raw.length < e.window_imb)

/-- Everything in `on_tick` after the warm-up gate: exit evaluation while in
a position, the session/VWAP filters, signal composition, the cooldown/cap
gates and the decision.  On every path reaching this point the local
`spread_ok`/`jump_ok` variables are `True`.  In the `enterLong`/`enterShort`
branches `self._enter(...)` is the method's final statement and raises
`TypeError` (see `enterAction`); the state and diagnostics returned here are
those at the raise point, and the escaping exception is caught by
`TickBus.publish`. -/
def evalPhase (e1 : Engine) (lp bid_qty ask_qty : ℚ) (now : DTime) (gw : Gw) :
    Engine × TickOutcome × List Diag :=
  match e1.position with
  | some _ =>
    match shouldExitReason e1 now lp bid_qty ask_qty with
    | some r =>
        let d := mkDiag "EXIT" true true (some true) (some true) false false
        ((exitAction e1 gw.exitFails).1, TickOutcome.exitDecision r, [d])
    | none => (e1, TickOutcome.holdInPosition, [])
  | none =>
    if !(sessionFiltersPass e1.cfg now) then
      (e1, TickOutcome.holdSession, [mkDiag "HOLD" true true (some false) none false false])
    else if e1.cfg.use_vwap_filter && !(vwapFilterPass e1 lp) then
      (e1, TickOutcome.holdVwap, [mkDiag "HOLD" true true (some true) (some false) false false])
    else
      let sg := signalsFn e1 lp bid_qty ask_qty
      if truthyQOpt e1.last_entry_ts &&
         decide (now.ts - e1.last_entry_ts.getD 0 < e1.cfg.cooldown_seconds) then
        (e1, TickOutcome.holdCooldown,
         [mkDiag "HOLD" true true (some true) (some true) sg.1 sg.2])
      else if e1.trades_taken ≥ e1.cfg.max_trades_per_session then
        (e1, TickOutcome.holdCap,
         [mkDiag "HOLD" true true (some true) (some true) sg.1 sg.2])
      else if sg.1 then
        ((enterAction e1 Side.BUY lp now gw.enter).1, TickOutcome.enterLong,
         [mkDiag "ENTER_LONG" true true (some true) (some true) true false])
      else if sg.2 then
        ((enterAction e1 Side.SELL lp now gw.enter).1, TickOutcome.enterShort,
         [mkDiag "ENTER_SHORT" true true (some true) (some true) false true])
      else
        (e1, TickOutcome.hold,
         [mkDiag "HOLD" true true (some true) (some true) false false])

/-- `on_tick(tick)`.  `now` is `dt.datetime.now(self.ctx.tz)`; `gw` fixes the
outcome of any gateway call made during this tick. -/
def onTick (e : Engine) (t : Tick) (now : DTime) (gw : Gw) :
    Engine × TickOutcome × List Diag :=
  match e.token with
  | none => (e, TickOutcome.ignored, [])
  | some tok =>
    if tok = 0 then (e, TickOutcome.ignored, [])
    else if t.instrument_token ≠ some tok then (e, TickOutcome.ignored, [])
    else
      match t.last_price with
      | none => (e, TickOutcome.ignored, [])
      | some lp =>
        let bb := bestBid t
        let ba := bestAsk t
        let proceed : Engine × TickOutcome × List Diag :=
          let u := applyUpdates e t lp
          if warmupShort u.1 then (u.1, TickOutcome.warmup, [])
          else evalPhase u.1 lp u.2.1 u.2.2 now gw
        if truthyQOpt bb && truthyQOpt ba then
          let spread_pct := spreadPctOf (bb.getD 0) (ba.getD 0)
          if decide (spread_pct > e.cfg.max_spread_pct) then
            let d := mkDiag "HOLD" false true none none false false
            if e.position.isSome && decide (spread_pct > e.cfg.max_spread_pct * 2) then
              ((exitAction e gw.exitFails).1, TickOutcome.rejectedSpread true, [d])
            else (e, TickOutcome.rejectedSpread false, [d])
          else
            match e.prices.getLast? with
            | some prev =>
              let jump_bps := jumpBps lp prev
              if decide (jump_bps > e.cfg.max_tick_jump_bps) then
                let d := mkDiag "HOLD" true false none none false false
                if e.position.isSome && decide (jump_bps > e.cfg.max_tick_jump_bps * 2) then
                  ((exitAction e gw.exitFails).1, TickOutcome.rejectedJump true, [d])
                else (e, TickOutcome.rejectedJump false, [d])
              else proceed
            | none => proceed
        else proceed

/-! ## TickBus (`core/stream.py`)

A subscriber is modelled by its invocation counter plus a predicate saying on
which batches its callback raises.  `publish` iterates over the subscriber
list; every call is wrapped in try/except, so a raise is logged and the loop
continues — the model returns the handler list after the calls together with
the number of logged exceptions. -/

/-- One subscriber callback: invoking it increments its receipt counter;
`raises` tells whether the call then raises (which the bus catches). -/
structure BusHandler where
  recvCount : ℕ
  raises : List Tick → Bool

/-- The call `fn(ticks)` inside `TickBus.publish`: the handler is invoked
(receipt recorded) and the Boolean reports whether it raised. -/
def busInvoke (h : BusHandler) (b : List Tick) : BusHandler × Bool :=
  ({ h with recvCount := h.recvCount + 1 }, h.raises b)

/-- `TickBus.publish(ticks)`: call every subscriber of the snapshot in
registration order; a raising call is caught and logged (counted) and the
loop moves on to the next subscriber. -/
def busPublish (subs : List BusHandler) (b : List Tick) : List BusHandler × ℕ :=
  match subs with
  | [] => ([], 0)
  | h :: t =>
    let c := busInvoke h b
    let r := busPublish t b
    (c.1 :: r.1, (if c.2 then 1 else 0) + r.2)

/-- A sequence of inbound batches (`Stream._on_ticks` calls `publish` once
per batch). -/
def busRun (subs : List BusHandler) (batches : List (List Tick)) : List BusHandler :=
  batches.foldl (fun s b => (busPublish s b).1) subs

/-! ## ConfigStore (`web/app.py`)

Python/JSON values, the coercion of `_coerce_types`, dictionaries as
association lists with unique keys, `_effective_config` and the body of
`strategy_config_post`. -/

/-- A Python/JSON value as handled by the config endpoints.  Tuples from the
base config and JSON arrays are both modelled as `PList`. -/
inductive PyVal where
  | PBool (b : Bool)
  | PInt (i : ℤ)
  | PFloat (q : ℚ)
  | PStr (s : String)
  | PNone
  | PList (l : List PyVal)

/-- Decimal digit to character. -/
def digitChar (d : ℕ) : Char :=
  match d with
  | 0 => '0' | 1 => '1' | 2 => '2' | 3 => '3' | 4 => '4'
  | 5 => '5' | 6 => '6' | 7 => '7' | 8 => '8' | _ => '9'

/-- Character to decimal digit (inverse of `digitChar` on digits). -/
def decodeDigit (c : Char) : ℕ :=
  if c = '0' then 0 else if c = '1' then 1 else if c = '2' then 2
  else if c = '3' then 3 else if c = '4' then 4 else if c = '5' then 5
  else if c = '6' then 6 else if c = '7' then 7 else if c = '8' then 8 else 9

/-- Decimal digit list of a natural number, most significant first
(the digit part of Python `str(n)`). -/
def natReprL (n : ℕ) : List Char :=
  if _h : n < 10 then [digitChar n]
  else natReprL (n / 10) ++ [digitChar (n % 10)]
decreasing_by exact Nat.div_lt_self (by omega) (by omega)

/-- Reads a digit list back as a number (used to prove `natReprL` injective). -/
def decodeL (l : List Char) : ℕ :=
  l.foldl (fun a c => a * 10 + decodeDigit c) 0

/-- Python `str(n)` for a natural number. -/
def natRepr (n : ℕ) : String := ⟨natReprL n⟩

/-- Python `str(i)` for an integer (a minus sign followed by the digits). -/
def intRepr (i : ℤ) : String :=
  if i < 0 then "-" ++ natRepr i.natAbs else natRepr i.natAbs

/-- Python `repr` of a float.  CPython formatting (shortest round-tripping
decimal) is not reproduced; the theorems below only ever evaluate `pyStr` on
integers, so this placeholder records just the shape num/den of the rational. -/
def floatRepr (q : ℚ) : String := intRepr q.num ++ "/" ++ natRepr q.den

mutual

/-- Python `repr(v)` (used for the elements of a list display). -/
def pyRepr : PyVal → String
  | PyVal.PBool true => "True"
  | PyVal.PBool false => "False"
  | PyVal.PInt i => intRepr i
  | PyVal.PFloat q => floatRepr q
  | PyVal.PStr s => "'" ++ s ++ "'"
  | PyVal.PNone => "None"
  | PyVal.PList l => "[" ++ pyReprListBody l ++ "]"

/-- Comma-separated `repr`s of the elements of a list. -/
def pyReprListBody : List PyVal → String
  | [] => ""
  | [v] => pyRepr v
  | v :: rest => pyRepr v ++ ", " ++ pyReprListBody rest

end

/-- Python `str(v)`: like `repr(v)` except that a string is rendered bare. -/
def pyStr : PyVal → String
  | PyVal.PStr s => s
  | v => pyRepr v

/-- `str(d.get(k))` where a missing key yields `str(None)`. -/
def pyStrOpt : Option PyVal → String
  | none => "None"
  | some v => pyStr v

/-- `str(v).lower() in ("1", "true", "yes", "on")` — the generic branch of the
Boolean coercion. -/
def pyTruthyWord (v : PyVal) : Bool :=
  let s := (pyStr v).toLower
  s = "1" || s = "true" || s = "yes" || s = "on"

/-- Nonempty all-digit character list parsed to a number (the core of Python
`int(string)`; whitespace tolerance and underscores are not modelled). -/
def digitsToNat (l : List Char) : Option ℕ :=
  if l ≠ [] ∧ l.all (fun c => c.isDigit) then some (decodeL l) else none

/-- Python `int(string)`. -/
def strToInt (s : String) : Option ℤ :=
  match s.data with
  | '-' :: rest => (digitsToNat rest).map (fun n => -(n : ℤ))
  | '+' :: rest => (digitsToNat rest).map (fun n => (n : ℤ))
  | l => (digitsToNat l).map (fun n => (n : ℤ))

/-- Truncation toward zero (Python `int(float)`). -/
def ratTrunc (q : ℚ) : ℤ := if q ≥ 0 then ⌊q⌋ else -⌊-q⌋

/-- Python `int(v)` on the modelled values; `none` marks the cases that raise
(`None`, lists, non-numeric strings). -/
def pyToInt : PyVal → Option ℤ
  | PyVal.PBool b => some (if b then 1 else 0)
  | PyVal.PInt i => some i
  | PyVal.PFloat q => some (ratTrunc q)
  | PyVal.PStr s => strToInt s
  | _ => none

/-- Digit list with an optional single dot parsed as a rational (the core of
Python `float(string)`; exponents and specials are not modelled). -/
def strToFloatCore (l : List Char) : Option ℚ :=
  match (String.mk l).splitOn "." with
  | [a] => (digitsToNat a.data).map (fun n => (n : ℚ))
  | [a, b] =>
    if a.data = [] ∧ b.data = [] then none
    else
      let ip := if a.data = [] then some 0 else digitsToNat a.data
      let fp := if b.data = [] then some ((0 : ℕ), (0 : ℕ))
                else (digitsToNat b.data).map (fun n => (n, b.data.length))
      match ip, fp with
      | some n, some mf => some ((n : ℚ) + (mf.1 : ℚ) / (10 : ℚ) ^ mf.2)
      | _, _ => none
  | _ => none

/-- Python `float(string)`. -/
def strToFloat (s : String) : Option ℚ :=
  match s.data with
  | '-' :: rest => (strToFloatCore rest).map (fun q => -q)
  | '+' :: rest => strToFloatCore rest
  | l => strToFloatCore l

/-- Python `float(v)` on the modelled values. -/
def pyToFloat : PyVal → Option ℚ
  | PyVal.PBool b => some (if b then 1 else 0)
  | PyVal.PInt i => some (i : ℚ)
  | PyVal.PFloat q => some q
  | PyVal.PStr s => strToFloat s
  | _ => none

/-- The per-key body of `_coerce_types`: coerce `v` to the type of the base
value; `none` means the cast raised and the key is skipped. -/
def coerceVal (baseVal v : PyVal) : Option PyVal :=
  match baseVal with
  | PyVal.PBool _ =>
    match v with
    | PyVal.PBool b => some (PyVal.PBool b)
    | _ => some (PyVal.PBool (pyTruthyWord v))
  | PyVal.PInt _ => (pyToInt v).map PyVal.PInt
  | PyVal.PFloat _ => (pyToFloat v).map PyVal.PFloat
  | PyVal.PList _ => some v
  | _ => some v

/-- A Python dict as an association list (unique keys, insertion order). -/
abbrev PyMap := List (String × PyVal)

/-- `d.get(k)` / `k in d`. -/
def lookupM : PyMap → String → Option PyVal
  | [], _ => none
  | kv :: t, k => if kv.1 = k then some kv.2 else lookupM t k

/-- `d[k] = v`: replace the value of an existing key in place, else append. -/
def setKey : PyMap → String → PyVal → PyMap
  | [], k, v => [(k, v)]
  | kv :: t, k, v => if kv.1 = k then (k, v) :: t else kv :: setKey t k v

/-- `m.update(ov)` (dict update, returning the new dict). -/
def updateM (m ov : PyMap) : PyMap :=
  ov.foldl (fun acc kv => setKey acc kv.1 kv.2) m

/-- The loop body of `_coerce_types`: skip unknown keys, store a successful
coercion, skip a failed cast. -/
def coerceStep (base out : PyMap) (kv : String × PyVal) : PyMap :=
  match lookupM base kv.1 with
  | none => out
  | some bv =>
    match coerceVal bv kv.2 with
    | some cv => setKey out kv.1 cv
    | none => out

/-- `_coerce_types(base_cfg, raw)`: build a fresh dict holding every known
key whose value coerces; unknown keys and failed casts are skipped. -/
def coerceTypes (base raw : PyMap) : PyMap :=
  raw.foldl (coerceStep base) []

/-- `_effective_config()` relative to a base and an override store. -/
def effectiveConfig (base store : PyMap) : PyMap := updateM base store

/-- `_STRUCTURAL_KEYS` (a set in the source; listed here in a fixed order). -/
def structuralKeys : List String :=
  ["momentum_window", "delta_window", "imbalance_window",
   "depth_levels", "vwap_slope_window", "absorption_window"]

/-- What `strategy_config_post` can reach of one running strategy: its live
`cfg` dict and the window capacities snapshotted by `__init__` (attributes the
endpoint never assigns). -/
structure EngineView where
  cfg : PyMap
  window_mom : ℕ
  window_delta : ℕ
  window_imb : ℕ
  depth_levels : ℕ
  vwapCap : ℕ
  absCap : ℕ

/-- The JSON response of `strategy_config_post` (the `effective` echo and the
note string are reflected by the returned store). -/
structure ConfigResp where
  ok : Bool
  rebuild_required : Bool
  applied_live : Bool
deriving DecidableEq

/-- Body of `strategy_config_post`: coerce the incoming map, predict whether a
structural key changes (string comparison of old/new effective values),
persist the coerced overrides, and live-apply them to the running strategies
only when no rebuild is required. -/
def configPost (base store : PyMap) (engines : List EngineView) (raw : PyMap) :
    ConfigResp × PyMap × List EngineView :=
  let old_eff := effectiveConfig base store
  let new_overrides := coerceTypes base raw
  let future := updateM store new_overrides
  let new_eff := updateM base future
  let rebuild := structuralKeys.any
    (fun k => !(pyStrOpt (lookupM old_eff k) = pyStrOpt (lookupM new_eff k) : Bool))
  let engines1 :=
    if !engines.isEmpty && !rebuild then
      engines.map (fun s => { s with cfg := updateM s.cfg new_overrides })
    else engines
  let applied := !engines.isEmpty && !rebuild
  ({ ok := true, rebuild_required := rebuild, applied_live := applied }, future, engines1)

/-- Truthiness of an optional string (`None` and `""` are falsy). -/
def truthyStrOpt (o : Option String) : Bool :=
  match o with
  | none => false
  | some s => s != ""

/-- The key list of a dict model. -/
def keysOf (m : PyMap) : List String := m.map Prod.fst

/-- The association list faithfully represents a Python dict: unique keys. -/
def NodK (m : PyMap) : Prop := (keysOf m).Nodup

instance (m : PyMap) : Decidable (NodK m) :=
  inferInstanceAs (Decidable (List.Nodup _))

/-- The position-state invariant of the spec: FLAT iff no entry price iff no
parent order id. -/
def Inv (e : Engine) : Prop :=
  (e.position = none ↔ e.entry_price = none) ∧
  (e.position = none ↔ e.parent_order_id = none)

instance (e : Engine) : Decidable (Inv e) :=
  inferInstanceAs (Decidable (_ ∧ _))

/-- `oflt_config.CONFIG` as the typed view (floats as exact rationals;
`depth_ratio_max_short = 1 / 1.50` is the exact `2/3`; `tick_size` is the
`cfg.get("tick_size", 0.10)` default). -/
def baseCfg : Cfg where
  momentum_window := 20
  delta_window := 12
  imbalance_window := 8
  depth_levels := 3
  imbalance_threshold_long := 3/5
  imbalance_threshold_short := -(3/5)
  depth_ratio_min_long := 3/2
  depth_ratio_max_short := 2/3
  delta_trend_ticks := 6
  require_hh_hl_for_long := true
  require_ll_lh_for_short := true
  use_vwap_filter := true
  vwap_slope_window := 30
  absorption_window := 15
  absorption_min_traded_qty := 2000
  absorption_max_price_range_bps := 4
  skip_first_minutes := 5
  lunch_skip_start := (13, 15)
  lunch_skip_end := (13, 30)
  use_best_windows := true
  best_windows := [((9, 20), (13, 15)), ((13, 30), (14, 45))]
  max_spread_pct := 1/2000
  max_tick_jump_bps := 10
  dry_run := true
  qty := 1
  stoploss_pct := 1/1000
  cooldown_seconds := 60
  max_trades_per_session := 3
  time_stop_seconds := 180
  target_pct := 1/1000
  tick_size := 1/10

/-- A freshly constructed engine for token 1 with no overrides (the deque
capacities are the `int(...)` snapshots of the base config). -/
def engine0 : Engine where
  cfg := baseCfg
  token := some 1
  window_mom := 20
  window_delta := 12
  window_imb := 8
  depth_levels := 3
  absCap := 15
  vwapCap := 30
  prices := []
  delta_raw := []
  imbalance_raw := []
  abs_range_prices := []
  abs_qty := []
  cum_pv := 0
  cum_v := 0
  vwap_history := []
  position := none
  entry_price := none
  parent_order_id := none
  last_entry_ts := none
  trades_taken := 0

/-- `BASE_OFLT_CONFIG` (= `oflt_config.CONFIG`) as a value dictionary.
Tuples are `PList`s; the float literals are exact rationals. -/
def baseConfig : PyMap :=
  [("momentum_window", PyVal.PInt 20),
   ("delta_window", PyVal.PInt 12),
   ("imbalance_window", PyVal.PInt 8),
   ("depth_levels", PyVal.PInt 3),
   ("imbalance_threshold_long", PyVal.PFloat (3/5)),
   ("imbalance_threshold_short", PyVal.PFloat (-(3/5))),
   ("depth_ratio_min_long", PyVal.PFloat (3/2)),
   ("depth_ratio_max_short", PyVal.PFloat (2/3)),
   ("delta_trend_ticks", PyVal.PInt 6),
   ("require_hh_hl_for_long", PyVal.PBool true),
   ("require_ll_lh_for_short", PyVal.PBool true),
   ("use_vwap_filter", PyVal.PBool true),
   ("vwap_slope_window", PyVal.PInt 30),
   ("absorption_window", PyVal.PInt 15),
   ("absorption_min_traded_qty", PyVal.PInt 2000),
   ("absorption_max_price_range_bps", PyVal.PInt 4),
   ("skip_first_minutes", PyVal.PInt 5),
   ("lunch_skip_start", PyVal.PStr "13:15"),
   ("lunch_skip_end", PyVal.PStr "13:30"),
   ("use_best_windows", PyVal.PBool true),
   ("best_windows",
    PyVal.PList [PyVal.PList [PyVal.PStr "09:20", PyVal.PStr "13:15"],
                 PyVal.PList [PyVal.PStr "13:30", PyVal.PStr "14:45"]]),
   ("max_spread_pct", PyVal.PFloat (1/2000)),
   ("max_tick_jump_bps", PyVal.PInt 10),
   ("dry_run", PyVal.PBool true),
   ("qty", PyVal.PInt 1),
   ("exchange", PyVal.PStr "NSE"),
   ("stoploss_pct", PyVal.PFloat (1/1000)),
   ("cooldown_seconds", PyVal.PInt 60),
   ("max_trades_per_session", PyVal.PInt 3),
   ("time_stop_seconds", PyVal.PInt 180),
   ("log_signals", PyVal.PBool true),
   ("log_rejections", PyVal.PBool true),
   ("target_pct", PyVal.PFloat (1/1000))]

/-! ## Concrete fixtures used by the closed theorems -/

/-- A depth-less tick for token 1 at price 100. -/
def tick100 : Tick where
  instrument_token := some 1
  last_price := some 100
  last_traded_quantity := none
  last_quantity := none
  depth_buy := []
  depth_sell := []

/-- A gateway that accepts the entry and does not raise on exit. -/
def gwOk1 : Gw where
  enter := GwEnter.gwOk (some "OID1")
  exitFails := false

/-- 10:00:00 session time, epoch second 1000. -/
def now10 : DTime where
  hour := 10
  minute := 0
  sec := 0
  ts := 1000

/-- A small-window engine: capacities 3/1/1, all windows full. -/
def engC2 : Engine :=
  { engine0 with
    cfg := { baseCfg with momentum_window := 3, delta_window := 1, imbalance_window := 1 },
    window_mom := 3, window_delta := 1, window_imb := 1,
    prices := [100, 100, 100], delta_raw := [0], imbalance_raw := [0] }

/-- A fresh engine that has seen one price (100). -/
def engC3 : Engine := { engine0 with prices := [100] }

/-- A depth-less tick at price 200 (a 10000 bps jump from 100). -/
def tickC3 : Tick := { tick100 with last_price := some 200 }

/-- A live LONG engine with previous price 100. -/
def engW3 : Engine :=
  { engine0 with
    prices := [100], position := some Pos.LONG, entry_price := some 100,
    parent_order_id := some "P1", cfg := { baseCfg with dry_run := false } }

/-- A tick at price 200 carrying a tight book (bid 99.99, ask 100). -/
def tickW3 : Tick :=
  { tick100 with
    last_price := some 200,
    depth_buy := [{ price := 9999/100, quantity := 10 }],
    depth_sell := [{ price := 100, quantity := 5 }] }

/-- A warmed-up live engine (windows 5/1/1 full, session filters passing at
`now10`): the concrete input on which the entry attempt is evaluated. -/
def engC4 : Engine :=
  { engine0 with
    cfg := { baseCfg with
             dry_run := false,
             use_vwap_filter := false,
             use_best_windows := false,
             momentum_window := 5,
             delta_window := 1,
             imbalance_window := 1 },
    window_mom := 5, window_delta := 1, window_imb := 1,
    prices := [100, 100, 100, 100, 100], delta_raw := [0], imbalance_raw := [0] }

/-- A live SHORT engine with no parent order id. -/
def engC5 : Engine :=
  { engine0 with
    position := some Pos.SHORT, entry_price := some 50,
    cfg := { baseCfg with dry_run := false } }

/-- A warmed-up dry-run engine LONG from entry price 100. -/
def engC9 : Engine :=
  { engine0 with
    position := some Pos.LONG, entry_price := some 100,
    parent_order_id := some "DRY_PARENT", last_entry_ts := some 900,
    trades_taken := 1,
    prices := List.replicate 20 100, delta_raw := List.replicate 12 0,
    imbalance_raw := List.replicate 8 0 }

/-- A depth-less tick at the target price 100.10. -/
def tickC9 : Tick := { tick100 with last_price := some (1001/10) }

/-- A live LONG engine with a stored parent order id. -/
def engC10 : Engine :=
  { engine0 with
    position := some Pos.LONG, entry_price := some 100,
    parent_order_id := some "P7", cfg := { baseCfg with dry_run := false } }

/-- A running-strategy view whose `cfg` is the base dict and whose capacities
are the base snapshots. -/
def engView0 : EngineView where
  cfg := baseConfig
  window_mom := 20
  window_delta := 12
  window_imb := 8
  depth_levels := 3
  vwapCap := 30
  absCap := 15

/-- An override post changing the structural key `momentum_window`. -/
def rawC6 : PyMap := [("momentum_window", PyVal.PInt 25)]

/-- An override post with a coercible known key (string to int), an unknown
key, and a known key whose coercion fails. -/
def rawC7 : PyMap :=
  [("momentum_window", PyVal.PStr "25"),
   ("bogus", PyVal.PInt 1),
   ("delta_window", PyVal.PNone)]

/-! ## Helper lemmas -/

theorem busPublish_fst (subs : List BusHandler) (b : List Tick) :
    (busPublish subs b).1 =
      subs.map (fun h => { h with recvCount := h.recvCount + 1 }) := by
  induction subs with
  | nil => rfl
  | cons h t ih => simp [busPublish, busInvoke, ih]

theorem busPublish_snd (subs : List BusHandler) (b : List Tick) :
    (busPublish subs b).2 = (subs.filter (fun h => h.raises b)).length := by
  induction subs with
  | nil => rfl
  | cons h t ih =>
    by_cases hr : h.raises b <;> simp [busPublish, busInvoke, hr, ih]
    omega

theorem busRun_map (batches : List (List Tick)) (subs : List BusHandler) :
    busRun subs batches =
      subs.map (fun h => { h with recvCount := h.recvCount + batches.length }) := by
  induction batches generalizing subs with
  | nil =>
    simp only [busRun, List.foldl_nil, List.length_nil, Nat.add_zero]
    exact (List.map_id subs).symm
  | cons b bs ih =>
    have : busRun subs (b :: bs) = busRun (busPublish subs b).1 bs := rfl
    rw [this, ih, busPublish_fst, List.map_map]
    refine List.map_congr_left (fun h _ => ?_)
    simp [Function.comp]
    omega

theorem applyUpdates_position (e : Engine) (t : Tick) (lp : ℚ) :
    (applyUpdates e t lp).1.position = e.position := rfl

theorem applyUpdates_entry (e : Engine) (t : Tick) (lp : ℚ) :
    (applyUpdates e t lp).1.entry_price = e.entry_price := rfl

theorem applyUpdates_parent (e : Engine) (t : Tick) (lp : ℚ) :
    (applyUpdates e t lp).1.parent_order_id = e.parent_order_id := rfl

theorem inv_clearPosition (e : Engine) : Inv (clearPosition e) := by
  simp [Inv, clearPosition]

theorem enterAction_eq (e : Engine) (side : Side) (price : ℚ) (now : DTime)
    (g : GwEnter) :
    enterAction e side price now g = (e, some PyError.typeError) := rfl

theorem inv_enterAction (e : Engine) (side : Side) (price : ℚ) (now : DTime)
    (g : GwEnter) (h : Inv e) : Inv (enterAction e side price now g).1 := h

theorem inv_exitAction (e : Engine) (b : Bool) (h : Inv e) :
    Inv (exitAction e b).1 := by
  unfold exitAction
  split
  · exact h
  · split
    · exact inv_clearPosition e
    · split
      · exact inv_clearPosition e
      · split
        · exact inv_clearPosition e
        · split
          · exact inv_clearPosition e
          · exact inv_clearPosition e

theorem inv_squareOffOne (e : Engine) (b : Bool) (h : Inv e) :
    Inv (squareOffOne e b).1 := by
  unfold squareOffOne
  split
  · exact h
  · split
    · exact inv_clearPosition e
    · split
      · exact inv_clearPosition e
      · split
        · exact inv_clearPosition e
        · split
          · exact h
          · exact inv_clearPosition e

theorem inv_applyUpdates (e : Engine) (t : Tick) (lp : ℚ) (h : Inv e) :
    Inv (applyUpdates e t lp).1 := by
  unfold Inv
  rw [applyUpdates_position, applyUpdates_entry, applyUpdates_parent]
  exact h

theorem inv_evalPhase (e1 : Engine) (lp bq aq : ℚ) (now : DTime) (gw : Gw)
    (h : Inv e1) : Inv (evalPhase e1 lp bq aq now gw).1 := by
  unfold evalPhase
  split
  · split
    · exact inv_exitAction e1 gw.exitFails h
    · exact h
  · split
    · exact h
    · split
      · exact h
      · split
        · exact h
        · split
          · exact h
          · dsimp only
            split
            · exact inv_enterAction e1 Side.BUY lp now gw.enter h
            · split
              · exact inv_enterAction e1 Side.SELL lp now gw.enter h
              · exact h

theorem inv_onTick (e : Engine) (t : Tick) (now : DTime) (gw : Gw) (h : Inv e) :
    Inv (onTick e t now gw).1 := by
  unfold onTick
  split
  · exact h
  · split
    · exact h
    · split
      · exact h
      · split
        · exact h
        · next lp _ =>
          dsimp only
          split
          · split
            · split
              · exact inv_exitAction e gw.exitFails h
              · exact h
            · split
              · split
                · split
                  · exact inv_exitAction e gw.exitFails h
                  · exact h
                · split
                  · exact inv_applyUpdates e t lp h
                  · exact inv_evalPhase _ _ _ _ _ _ (inv_applyUpdates e t lp h)
              · split
                · exact inv_applyUpdates e t lp h
                · exact inv_evalPhase _ _ _ _ _ _ (inv_applyUpdates e t lp h)
          · split
            · exact inv_applyUpdates e t lp h
            · exact inv_evalPhase _ _ _ _ _ _ (inv_applyUpdates e t lp h)

theorem applyUpdates_trades (e : Engine) (t : Tick) (lp : ℚ) :
    (applyUpdates e t lp).1.trades_taken = e.trades_taken := rfl

theorem exitAction_clears (e : Engine) (b : Bool) (h : e.position ≠ none) :
    (exitAction e b).1.position = none := by
  rcases hp : e.position with _ | p
  · exact absurd hp h
  · unfold exitAction
    rw [hp]
    repeat' split
    all_goals first | rfl | simp_all

theorem exitAction_prices (e : Engine) (b : Bool) :
    (exitAction e b).1.prices = e.prices := by
  unfold exitAction
  repeat' split
  all_goals rfl

theorem exitAction_delta (e : Engine) (b : Bool) :
    (exitAction e b).1.delta_raw = e.delta_raw := by
  unfold exitAction
  repeat' split
  all_goals rfl

theorem exitAction_imb (e : Engine) (b : Bool) :
    (exitAction e b).1.imbalance_raw = e.imbalance_raw := by
  unfold exitAction
  repeat' split
  all_goals rfl

theorem warmupShort_exitAction (e : Engine) (b : Bool) :
    warmupShort (exitAction e b).1 = warmupShort e := by
  unfold exitAction
  repeat' split
  all_goals rfl

theorem warmupShort_enterAction (e : Engine) (side : Side) (price : ℚ)
    (now : DTime) (g : GwEnter) :
    warmupShort (enterAction e side price now g).1 = warmupShort e := rfl

theorem evalPhase_ne_warmup (e1 : Engine) (lp bq aq : ℚ) (now : DTime) (gw : Gw) :
    (evalPhase e1 lp bq aq now gw).2.1 ≠ TickOutcome.warmup := by
  unfold evalPhase
  repeat' first
    | split
    | (dsimp only; split)
  all_goals simp

theorem warmupShort_evalPhase (e1 : Engine) (lp bq aq : ℚ) (now : DTime) (gw : Gw) :
    warmupShort (evalPhase e1 lp bq aq now gw).1 = warmupShort e1 := by
  unfold evalPhase
  repeat' first
    | split
    | (dsimp only; split)
  all_goals first
    | rfl
    | exact warmupShort_exitAction e1 gw.exitFails

theorem lookup_setKey_self (m : PyMap) (k : String) (v : PyVal) :
    lookupM (setKey m k v) k = some v := by
  induction m with
  | nil => simp [setKey, lookupM]
  | cons kv t ih =>
    by_cases h : kv.1 = k
    · simp [setKey, h, lookupM]
    · simp [setKey, h, lookupM, ih]

theorem lookup_setKey_ne (m : PyMap) (k' k : String) (v : PyVal) (h : k' ≠ k) :
    lookupM (setKey m k' v) k = lookupM m k := by
  induction m with
  | nil => simp [setKey, lookupM, h]
  | cons kv t ih =>
    by_cases h2 : kv.1 = k' <;> by_cases h3 : kv.1 = k <;>
      simp_all [setKey, lookupM]

theorem keysOf_cons (kv : String × PyVal) (t : PyMap) :
    keysOf (kv :: t) = kv.1 :: keysOf t := rfl

theorem keysOf_setKey (m : PyMap) (k : String) (v : PyVal) :
    keysOf (setKey m k v) =
      if k ∈ keysOf m then keysOf m else keysOf m ++ [k] := by
  induction m with
  | nil => simp [setKey, keysOf]
  | cons kv t ih =>
    unfold setKey
    by_cases h : kv.1 = k
    · rw [if_pos h]
      have hmem : k ∈ keysOf (kv :: t) := by
        rw [keysOf_cons, h]
        exact List.mem_cons_self _ _
      rw [if_pos hmem, keysOf_cons, keysOf_cons, h]
    · rw [if_neg h]
      have hk2 : ¬(k = kv.1) := fun he => h he.symm
      by_cases h3 : k ∈ keysOf t
      · have hmem : k ∈ keysOf (kv :: t) := by
          rw [keysOf_cons]
          exact List.mem_cons_of_mem _ h3
        rw [if_pos hmem, keysOf_cons, keysOf_cons, ih, if_pos h3]
      · have hmem : k ∉ keysOf (kv :: t) := by
          rw [keysOf_cons]
          simp [hk2, h3]
        rw [if_neg hmem, keysOf_cons, keysOf_cons, ih, if_neg h3]
        rfl

theorem nodK_setKey (m : PyMap) (k : String) (v : PyVal) (h : NodK m) :
    NodK (setKey m k v) := by
  unfold NodK at h ⊢
  rw [keysOf_setKey]
  split
  · exact h
  · next hk => simp [List.nodup_append, h, hk]

theorem lookup_eq_none_iff (m : PyMap) (k : String) :
    lookupM m k = none ↔ k ∉ keysOf m := by
  induction m with
  | nil => simp [lookupM, keysOf]
  | cons kv t ih =>
    unfold lookupM
    by_cases h : kv.1 = k
    · simp [h, keysOf_cons]
    · rw [if_neg h, ih, keysOf_cons]
      have hk2 : ¬(k = kv.1) := fun he => h he.symm
      simp [hk2]

theorem lookup_updateM_of_none (m ov : PyMap) (k : String)
    (h : lookupM ov k = none) :
    lookupM (updateM m ov) k = lookupM m k := by
  induction ov generalizing m with
  | nil => rfl
  | cons kv tl ih =>
    by_cases hk : kv.1 = k
    · rw [lookupM, if_pos hk] at h
      cases h
    · rw [lookupM, if_neg hk] at h
      have hcons : updateM m (kv :: tl) = updateM (setKey m kv.1 kv.2) tl := rfl
      rw [hcons, ih _ h, lookup_setKey_ne _ _ _ _ hk]

theorem lookup_updateM_of_some (m ov : PyMap) (k : String) (v : PyVal)
    (hnd : NodK ov) (h : lookupM ov k = some v) :
    lookupM (updateM m ov) k = some v := by
  induction ov generalizing m with
  | nil => simp [lookupM] at h
  | cons kv tl ih =>
    have hnd' := hnd
    unfold NodK keysOf at hnd'
    rw [List.map_cons, List.nodup_cons] at hnd'
    obtain ⟨hnotin, hndtl⟩ := hnd'
    have hcons : updateM m (kv :: tl) = updateM (setKey m kv.1 kv.2) tl := rfl
    by_cases hk : kv.1 = k
    · rw [lookupM, if_pos hk] at h
      have htl : lookupM tl k = none := by
        rw [lookup_eq_none_iff]
        rw [← hk]
        exact hnotin
      rw [hcons, lookup_updateM_of_none _ _ _ htl, ← hk, lookup_setKey_self]
      exact h
    · rw [lookupM, if_neg hk] at h
      rw [hcons]
      exact ih _ hndtl h

theorem lookup_updateM (m ov : PyMap) (k : String) (hnd : NodK ov) :
    lookupM (updateM m ov) k =
      match lookupM ov k with
      | some v => some v
      | none => lookupM m k := by
  cases h : lookupM ov k
  · simpa using lookup_updateM_of_none m ov k h
  · simpa using lookup_updateM_of_some m ov k _ hnd h

theorem nodK_updateM (m ov : PyMap) (h : NodK m) : NodK (updateM m ov) := by
  induction ov generalizing m with
  | nil => exact h
  | cons kv tl ih =>
    have hcons : updateM m (kv :: tl) = updateM (setKey m kv.1 kv.2) tl := rfl
    rw [hcons]
    exact ih _ (nodK_setKey _ _ _ h)

theorem lookup_coerceStep_ne (base out : PyMap) (kv : String × PyVal)
    (k : String) (h : kv.1 ≠ k) :
    lookupM (coerceStep base out kv) k = lookupM out k := by
  unfold coerceStep
  split
  · rfl
  · split
    · exact lookup_setKey_ne _ _ _ _ h
    · rfl

theorem nodK_coerceStep (base out : PyMap) (kv : String × PyVal)
    (h : NodK out) : NodK (coerceStep base out kv) := by
  unfold coerceStep
  split
  · exact h
  · split
    · exact nodK_setKey _ _ _ h
    · exact h

theorem coerce_fold_none (base raw out : PyMap) (k : String)
    (h : lookupM raw k = none) :
    lookupM (raw.foldl (coerceStep base) out) k = lookupM out k := by
  induction raw generalizing out with
  | nil => rfl
  | cons kv tl ih =>
    by_cases hk : kv.1 = k
    · rw [lookupM, if_pos hk] at h
      cases h
    · rw [lookupM, if_neg hk] at h
      rw [List.foldl_cons, ih _ h, lookup_coerceStep_ne _ _ _ _ hk]

theorem coerce_fold_some (base raw out : PyMap) (k : String) (v : PyVal)
    (hnd : NodK raw) (h : lookupM raw k = some v) :
    lookupM (raw.foldl (coerceStep base) out) k =
      match lookupM base k with
      | none => lookupM out k
      | some bv =>
        match coerceVal bv v with
        | some cv => some cv
        | none => lookupM out k := by
  induction raw generalizing out with
  | nil => simp [lookupM] at h
  | cons kv tl ih =>
    have hnd' := hnd
    unfold NodK keysOf at hnd'
    rw [List.map_cons, List.nodup_cons] at hnd'
    obtain ⟨hnotin, hndtl⟩ := hnd'
    rw [List.foldl_cons]
    by_cases hk : kv.1 = k
    · rw [lookupM, if_pos hk] at h
      have hv : kv.2 = v := Option.some.inj h
      have htl : lookupM tl k = none := by
        rw [lookup_eq_none_iff, ← hk]
        exact hnotin
      rw [coerce_fold_none base tl _ k htl]
      subst hk
      unfold coerceStep
      rw [hv]
      cases hb : lookupM base kv.1 with
      | none => rfl
      | some bv =>
        dsimp only
        cases hc : coerceVal bv v with
        | none => rfl
        | some cv => simp [lookup_setKey_self]
    · rw [lookupM, if_neg hk] at h
      rw [ih _ hndtl h, lookup_coerceStep_ne _ _ _ _ hk]

theorem lookup_coerceTypes (base raw : PyMap) (k : String) (hnd : NodK raw) :
    lookupM (coerceTypes base raw) k =
      match lookupM raw k, lookupM base k with
      | some v, some bv => coerceVal bv v
      | _, _ => none := by
  cases hr : lookupM raw k with
  | none =>
    rw [coerceTypes, coerce_fold_none base raw [] k hr]
    cases lookupM base k <;> rfl
  | some v =>
    rw [coerceTypes, coerce_fold_some base raw [] k v hnd hr]
    cases hb : lookupM base k with
    | none => rfl
    | some bv =>
      dsimp only
      cases coerceVal bv v <;> rfl

theorem nodK_coerceTypes (base raw : PyMap) : NodK (coerceTypes base raw) := by
  rw [coerceTypes]
  have haux : ∀ out, NodK out → NodK (raw.foldl (coerceStep base) out) := by
    induction raw with
    | nil => exact fun out h => h
    | cons kv tl ih => exact fun out h => ih _ (nodK_coerceStep _ _ _ h)
  exact haux [] (by simp [NodK, keysOf])

theorem configPost_ok (base store : PyMap) (engines : List EngineView)
    (raw : PyMap) : (configPost base store engines raw).1.ok = true := rfl

theorem configPost_store (base store : PyMap) (engines : List EngineView)
    (raw : PyMap) :
    (configPost base store engines raw).2.1 =
      updateM store (coerceTypes base raw) := rfl

theorem configPost_rebuild (base store : PyMap) (engines : List EngineView)
    (raw : PyMap) :
    (configPost base store engines raw).1.rebuild_required =
      structuralKeys.any (fun k =>
        !(pyStrOpt (lookupM (effectiveConfig base store) k) =
          pyStrOpt (lookupM (updateM base (updateM store (coerceTypes base raw))) k)
          : Bool)) := rfl

theorem configPost_applied (base store : PyMap) (engines : List EngineView)
    (raw : PyMap) :
    (configPost base store engines raw).1.applied_live =
      (!engines.isEmpty &&
       !(structuralKeys.any (fun k =>
          !(pyStrOpt (lookupM (effectiveConfig base store) k) =
            pyStrOpt (lookupM (updateM base (updateM store (coerceTypes base raw))) k)
            : Bool)))) := rfl

theorem configPost_engines (base store : PyMap) (engines : List EngineView)
    (raw : PyMap) :
    (configPost base store engines raw).2.2 =
      (if (!engines.isEmpty &&
           !(structuralKeys.any (fun k =>
              !(pyStrOpt (lookupM (effectiveConfig base store) k) =
                pyStrOpt (lookupM (updateM base (updateM store (coerceTypes base raw))) k)
                : Bool)))) = true then
        engines.map (fun s => { s with cfg := updateM s.cfg (coerceTypes base raw) })
       else engines) := rfl

theorem digitChar_ne_dash (d : ℕ) : digitChar d ≠ '-' := by
  unfold digitChar
  split <;> decide

theorem dash_not_mem_natReprL (n : ℕ) : '-' ∉ natReprL n := by
  induction n using Nat.strong_induction_on with
  | _ n ih =>
    unfold natReprL
    split
    · simp only [List.mem_singleton]
      exact fun h => digitChar_ne_dash n h.symm
    · intro hmem
      rcases List.mem_append.mp hmem with h1 | h2
      · exact ih (n / 10) (Nat.div_lt_self (by omega) (by omega)) h1
      · exact digitChar_ne_dash (n % 10) (List.mem_singleton.mp h2).symm

theorem decode_digitChar (d : ℕ) (h : d < 10) :
    decodeDigit (digitChar d) = d := by
  interval_cases d <;> rfl

theorem decodeL_append (l : List Char) (c : Char) :
    decodeL (l ++ [c]) = decodeL l * 10 + decodeDigit c := by
  simp [decodeL, List.foldl_append]

theorem decodeL_natReprL (n : ℕ) : decodeL (natReprL n) = n := by
  induction n using Nat.strong_induction_on with
  | _ n ih =>
    unfold natReprL
    split
    · next h => simp [decodeL, decode_digitChar n h]
    · next h =>
      rw [decodeL_append, ih (n / 10) (Nat.div_lt_self (by omega) (by omega)),
        decode_digitChar (n % 10) (Nat.mod_lt n (by omega))]
      omega

theorem natReprL_inj (a b : ℕ) (h : natReprL a = natReprL b) : a = b := by
  rw [← decodeL_natReprL a, ← decodeL_natReprL b, h]

theorem natRepr_inj (a b : ℕ) (h : natRepr a = natRepr b) : a = b :=
  natReprL_inj a b (congrArg String.data h)

theorem intRepr_inj (a b : ℤ) (h : intRepr a = intRepr b) : a = b := by
  unfold intRepr at h
  by_cases ha : a < 0 <;> by_cases hb : b < 0
  · rw [if_pos ha, if_pos hb] at h
    have hd := congrArg String.data h
    rw [String.data_append, String.data_append] at hd
    have hl : natReprL a.natAbs = natReprL b.natAbs :=
      List.append_cancel_left hd
    have := natReprL_inj _ _ hl
    omega
  · rw [if_pos ha, if_neg hb] at h
    exfalso
    have hd := congrArg String.data h
    rw [String.data_append] at hd
    refine dash_not_mem_natReprL b.natAbs ?_
    show '-' ∈ (natRepr b.natAbs).data
    rw [← hd]
    exact List.mem_append_left _ (by decide)
  · rw [if_neg ha, if_pos hb] at h
    exfalso
    have hd := congrArg String.data h
    rw [String.data_append] at hd
    refine dash_not_mem_natReprL a.natAbs ?_
    show '-' ∈ (natRepr a.natAbs).data
    rw [hd]
    exact List.mem_append_left _ (by decide)
  · rw [if_neg ha, if_neg hb] at h
    have := natRepr_inj _ _ h
    omega

theorem pyStr_PInt (i : ℤ) : pyStr (PyVal.PInt i) = intRepr i := rfl

/-- Every `on_tick` run either never reaches the rolling updates (ownership,
parse, spread or jump rejection) or is exactly the warm-up-gated evaluation of
the updated engine. -/
theorem onTick_shape (e : Engine) (t : Tick) (now : DTime) (gw : Gw) :
    ((onTick e t now gw).2.1).isAccepted = false ∨
    (∃ lp, t.last_price = some lp ∧
      onTick e t now gw =
        (if warmupShort (applyUpdates e t lp).1 then
           ((applyUpdates e t lp).1, TickOutcome.warmup, ([] : List Diag))
         else
           evalPhase (applyUpdates e t lp).1 lp (applyUpdates e t lp).2.1
             (applyUpdates e t lp).2.2 now gw)) := by
  unfold onTick
  split
  · left; rfl
  · split
    · left; rfl
    · split
      · left; rfl
      · split
        · left; rfl
        · next lp heq =>
          dsimp only
          split
          · split
            · split
              · left; rfl
              · left; rfl
            · split
              · split
                · split
                  · left; rfl
                  · left; rfl
                · right; exact ⟨lp, heq, rfl⟩
              · right; exact ⟨lp, heq, rfl⟩
          · right; exact ⟨lp, heq, rfl⟩

/-! ## Claim theorems -/

/-- C8: `TickBus.publish` delivers one batch to every subscriber of the
snapshot in registration order regardless of raising handlers (each raise is
caught and counted as a logged exception, never propagated), and over any
batch sequence every handler — raising or not — is invoked on every batch. -/
theorem c8_tickbus_error_isolation (subs : List BusHandler)
    (batches : List (List Tick)) (b : List Tick) :
    busRun subs batches =
      subs.map (fun h => { h with recvCount := h.recvCount + batches.length }) ∧
    (busPublish subs b).1 =
      subs.map (fun h => { h with recvCount := h.recvCount + 1 }) ∧
    (busPublish subs b).2 = (subs.filter (fun h => h.raises b)).length :=
  ⟨busRun_map batches subs, busPublish_fst subs b, busPublish_snd subs b⟩

/-- C1: the FLAT ⇔ no-entry-price ⇔ no-parent-order-id invariant is preserved
by a full `on_tick` step (any gateway behaviour), by the entry action (a
raising state no-op, see `enterAction`), by the exit action and by a
control-plane square-off. -/
theorem c1_flat_invariant (e : Engine) (t : Tick) (now : DTime) (gw : Gw)
    (side : Side) (price : ℚ) (g : GwEnter) (b : Bool) (h : Inv e) :
    Inv (onTick e t now gw).1 ∧ Inv (enterAction e side price now g).1 ∧
    Inv (exitAction e b).1 ∧ Inv (squareOffOne e b).1 :=
  ⟨inv_onTick e t now gw h, inv_enterAction e side price now g h,
   inv_exitAction e b h, inv_squareOffOne e b h⟩

/-- C1 witness: the invariant theorem applied to the fresh engine. -/
theorem c1_flat_invariant_witness :
    Inv engine0 ∧
    (Inv (onTick engine0 tick100 now10 gwOk1).1 ∧
     Inv (enterAction engine0 Side.BUY 100 now10 GwEnter.gwRaise).1 ∧
     Inv (exitAction engine0 false).1 ∧ Inv (squareOffOne engine0 false).1) :=
  ⟨by decide,
   c1_flat_invariant engine0 tick100 now10 gwOk1 Side.BUY 100 GwEnter.gwRaise
     false (by decide)⟩

/-- C2 (amended): for every accepted tick, `on_tick` stops right after the
rolling updates — no entry, exit, or diagnostic — exactly when
`len(prices) < max(5, momentum_window)` or DeltaWindow/ImbalanceWindow are
below their configured capacities (the `warmupShort` gate); for
`momentum_window ≥ 5` this is the all-windows-at-capacity condition, but for
`momentum_window < 5` evaluation never proceeds. -/
theorem c2_warmup_gate (e : Engine) (t : Tick) (now : DTime) (gw : Gw)
    (hacc : ((onTick e t now gw).2.1).isAccepted = true) :
    ((onTick e t now gw).2.1 = TickOutcome.warmup ↔
      warmupShort (onTick e t now gw).1 = true) ∧
    ((onTick e t now gw).2.1 = TickOutcome.warmup →
      (onTick e t now gw).2.2 = [] ∧
      (onTick e t now gw).1.position = e.position ∧
      (onTick e t now gw).1.trades_taken = e.trades_taken) := by
  rcases onTick_shape e t now gw with hrej | ⟨lp, _, hrun⟩
  · rw [hacc] at hrej
    exact absurd hrej (by simp)
  · rw [hrun]
    by_cases hw : warmupShort (applyUpdates e t lp).1 <;>
      simp [hw, evalPhase_ne_warmup, warmupShort_evalPhase,
        applyUpdates_position, applyUpdates_trades]

/-- C2 witness: the amended warm-up theorem applied to the fresh engine and an
accepted depth-less tick. -/
theorem c2_warmup_gate_witness :
    ((onTick engine0 tick100 now10 gwOk1).2.1).isAccepted = true ∧
    (((onTick engine0 tick100 now10 gwOk1).2.1 = TickOutcome.warmup ↔
       warmupShort (onTick engine0 tick100 now10 gwOk1).1 = true) ∧
     ((onTick engine0 tick100 now10 gwOk1).2.1 = TickOutcome.warmup →
       (onTick engine0 tick100 now10 gwOk1).2.2 = [] ∧
       (onTick engine0 tick100 now10 gwOk1).1.position = engine0.position ∧
       (onTick engine0 tick100 now10 gwOk1).1.trades_taken = engine0.trades_taken)) :=
  ⟨by decide, c2_warmup_gate engine0 tick100 now10 gwOk1 (by decide)⟩

/-- C2 counterexample: with configured capacities 3/1/1 all three windows are
at capacity, the tick is accepted, yet the warm-up gate still stops
evaluation — because the gate compares the price window against
`max(5, momentum_window)`, not against its configured capacity. -/
theorem c2_warmup_gate_cex :
    engC2.prices.length = engC2.window_mom ∧
    engC2.delta_raw.length = engC2.window_delta ∧
    engC2.imbalance_raw.length = engC2.window_imb ∧
    engC2.window_mom = engC2.cfg.momentum_window ∧
    engC2.window_delta = engC2.cfg.delta_window ∧
    engC2.window_imb = engC2.cfg.imbalance_window ∧
    ((onTick engC2 tick100 now10 gwOk1).2.1).isAccepted = true ∧
    (onTick engC2 tick100 now10 gwOk1).2.1 = TickOutcome.warmup := by
  decide

/-- C3 (amended): the jump filter only runs on ticks whose order book carries
a truthy best bid *and* best ask; on such a tick that passes the spread
filter, if a previous price exists and the jump exceeds `max_tick_jump_bps`,
the tick is rejected with a single HOLD diagnostic showing `jump_ok=false`,
no rolling update happens, and an immediate exit is forced exactly when the
engine is in a position and the jump exceeds twice the threshold.  (A tick
without depth bypasses the jump filter entirely — see the counterexample.) -/
theorem c3_jump_filter (e : Engine) (t : Tick) (now : DTime) (gw : Gw)
    (tok : ℕ) (lp prev : ℚ)
    (htok : e.token = some tok) (htok0 : tok ≠ 0)
    (hmatch : t.instrument_token = some tok)
    (hlp : t.last_price = some lp)
    (hbb : truthyQOpt (bestBid t) = true)
    (hba : truthyQOpt (bestAsk t) = true)
    (hspread : ¬ spreadPctOf ((bestBid t).getD 0) ((bestAsk t).getD 0) >
        e.cfg.max_spread_pct)
    (hprev : e.prices.getLast? = some prev)
    (hjump : jumpBps lp prev > e.cfg.max_tick_jump_bps) :
    (onTick e t now gw).2.2 = [mkDiag "HOLD" true false none none false false] ∧
    (onTick e t now gw).1.prices = e.prices ∧
    (onTick e t now gw).1.delta_raw = e.delta_raw ∧
    (onTick e t now gw).1.imbalance_raw = e.imbalance_raw ∧
    (e.position.isSome = true ∧ jumpBps lp prev > e.cfg.max_tick_jump_bps * 2 →
      (onTick e t now gw).2.1 = TickOutcome.rejectedJump true ∧
      (onTick e t now gw).1.position = none) ∧
    (¬(e.position.isSome = true ∧ jumpBps lp prev > e.cfg.max_tick_jump_bps * 2) →
      (onTick e t now gw).2.1 = TickOutcome.rejectedJump false ∧
      (onTick e t now gw).1 = e) := by
  have hs : decide (spreadPctOf ((bestBid t).getD 0) ((bestAsk t).getD 0) >
      e.cfg.max_spread_pct) = false := decide_eq_false hspread
  have hj : decide (jumpBps lp prev > e.cfg.max_tick_jump_bps) = true :=
    decide_eq_true hjump
  unfold onTick
  rw [htok]
  dsimp only
  rw [if_neg htok0, hmatch, if_neg (by simp : ¬(some tok ≠ some tok)), hlp]
  dsimp only
  rw [hbb, hba]
  simp only [Bool.and_self, if_true]
  rw [hs]
  simp only [Bool.false_eq_true, if_false]
  rw [hprev]
  dsimp only
  rw [hj]
  simp only [if_true]
  by_cases hcond : (e.position.isSome &&
      decide (jumpBps lp prev > e.cfg.max_tick_jump_bps * 2)) = true
  · rw [if_pos hcond]
    simp only [Bool.and_eq_true, decide_eq_true_eq] at hcond
    refine ⟨rfl, exitAction_prices e gw.exitFails, exitAction_delta e gw.exitFails,
      exitAction_imb e gw.exitFails, ?_, ?_⟩
    · intro _
      exact ⟨rfl, exitAction_clears e gw.exitFails
        (by rcases hcond with ⟨h1, _⟩; simp [Option.isSome_iff_exists] at h1;
            rcases h1 with ⟨p, hp⟩; simp [hp])⟩
    · intro hn
      exact absurd hcond hn
  · rw [if_neg hcond]
    refine ⟨rfl, rfl, rfl, rfl, ?_, fun _ => ⟨rfl, rfl⟩⟩
    intro hboth
    exact absurd (by simp [hboth.1, decide_eq_true hboth.2]) hcond

/-- C3 witness: the amended jump-filter theorem applied to a live LONG engine
receiving a tight-book tick that jumps 10000 bps. -/
theorem c3_jump_filter_witness :
    (engW3.token = some 1 ∧ (1 : ℕ) ≠ 0 ∧
     tickW3.instrument_token = some 1 ∧ tickW3.last_price = some 200 ∧
     truthyQOpt (bestBid tickW3) = true ∧ truthyQOpt (bestAsk tickW3) = true ∧
     ¬ spreadPctOf ((bestBid tickW3).getD 0) ((bestAsk tickW3).getD 0) >
         engW3.cfg.max_spread_pct ∧
     engW3.prices.getLast? = some 100 ∧
     jumpBps 200 100 > engW3.cfg.max_tick_jump_bps) ∧
    ((onTick engW3 tickW3 now10 gwOk1).2.2 =
       [mkDiag "HOLD" true false none none false false] ∧
     (onTick engW3 tickW3 now10 gwOk1).1.prices = engW3.prices ∧
     (onTick engW3 tickW3 now10 gwOk1).1.delta_raw = engW3.delta_raw ∧
     (onTick engW3 tickW3 now10 gwOk1).1.imbalance_raw = engW3.imbalance_raw ∧
     (engW3.position.isSome = true ∧
        jumpBps 200 100 > engW3.cfg.max_tick_jump_bps * 2 →
        (onTick engW3 tickW3 now10 gwOk1).2.1 = TickOutcome.rejectedJump true ∧
        (onTick engW3 tickW3 now10 gwOk1).1.position = none) ∧
     (¬(engW3.position.isSome = true ∧
          jumpBps 200 100 > engW3.cfg.max_tick_jump_bps * 2) →
        (onTick engW3 tickW3 now10 gwOk1).2.1 = TickOutcome.rejectedJump false ∧
        (onTick engW3 tickW3 now10 gwOk1).1 = engW3)) :=
  ⟨⟨by decide, by decide, by decide, by decide, by decide, by decide, by decide,
    by decide, by decide⟩,
   c3_jump_filter engW3 tickW3 now10 gwOk1 1 200 100 (by decide) (by decide)
     (by decide) (by decide) (by decide) (by decide) (by decide) (by decide)
     (by decide)⟩

/-- C3 counterexample: a depth-less tick with a 10000 bps jump from the
previous price is *not* rejected — the rolling updates run (the price window
grows) and no diagnostic is emitted — refuting "regardless of whether the
tick carries order-book depth". -/
theorem c3_jump_filter_cex :
    engC3.prices.getLast? = some 100 ∧
    jumpBps 200 100 > engC3.cfg.max_tick_jump_bps ∧
    tickC3.last_price = some 200 ∧
    tickC3.depth_buy = [] ∧
    ((onTick engC3 tickC3 now10 gwOk1).2.1).isAccepted = true ∧
    (onTick engC3 tickC3 now10 gwOk1).2.1 = TickOutcome.warmup ∧
    (onTick engC3 tickC3 now10 gwOk1).1.prices = [100, 200] ∧
    (onTick engC3 tickC3 now10 gwOk1).2.2 = [] := by
  decide

/-- C9: a warmed-up dry-run engine LONG from entry price 100.00 with
`target_pct = 0.001` exits on any accepted depth-less tick with last price at
or above 100.10, and the exit decision is produced by the *target* condition
(the first condition `_should_exit_now` checks). -/
theorem c9_target_exit (e : Engine) (t : Tick) (now : DTime) (gw : Gw)
    (tok : ℕ) (lp : ℚ)
    (htok : e.token = some tok) (htok0 : tok ≠ 0)
    (hmatch : t.instrument_token = some tok)
    (hlp : t.last_price = some lp)
    (hnodepth : t.depth_buy = [])
    (hpos : e.position = some Pos.LONG)
    (hep : e.entry_price = some 100)
    (htgt : e.cfg.target_pct = 1/1000)
    (_hdry : e.cfg.dry_run = true)
    (hwarm : warmupShort (applyUpdates e t lp).1 = false)
    (hge : lp ≥ 1001/10) :
    (onTick e t now gw).2.1 = TickOutcome.exitDecision ExitReason.target ∧
    (onTick e t now gw).1.position = none := by
  have hbb0 : bestBid t = none := by simp [bestBid, hnodepth]
  have hser : shouldExitReason (applyUpdates e t lp).1 now lp
      (applyUpdates e t lp).2.1 (applyUpdates e t lp).2.2 = some ExitReason.target := by
    have hret : (1/1000 : ℚ) ≤ (lp - 100) / 100 := by
      rw [le_div_iff₀ (by norm_num : (0:ℚ) < 100)]
      linarith
    have hpos1 : (applyUpdates e t lp).1.position = some Pos.LONG := by
      rw [applyUpdates_position, hpos]
    have hep1 : (applyUpdates e t lp).1.entry_price = some 100 := by
      rw [applyUpdates_entry, hep]
    have htgt1 : (applyUpdates e t lp).1.cfg.target_pct = 1/1000 := htgt
    simp only [shouldExitReason, hep1, hpos1, htgt1]
    simp [truthyQ]
    intro hlt
    linarith
  unfold onTick
  rw [htok]
  dsimp only
  rw [if_neg htok0, hmatch, if_neg (by simp : ¬(some tok ≠ some tok)), hlp]
  dsimp only
  rw [hbb0]
  simp only [truthyQOpt, Bool.false_and, Bool.false_eq_true, if_false]
  rw [hwarm]
  simp only [Bool.false_eq_true, if_false]
  unfold evalPhase
  rw [applyUpdates_position, hpos]
  dsimp only
  rw [hser]
  dsimp only
  exact ⟨rfl, exitAction_clears _ gw.exitFails
    (by rw [applyUpdates_position, hpos]; simp)⟩

/-- C9 witness: the target-exit theorem applied to the warmed-up dry LONG
engine and a tick at exactly 100.10. -/
theorem c9_target_exit_witness :
    (engC9.token = some 1 ∧ (1 : ℕ) ≠ 0 ∧
     tickC9.instrument_token = some 1 ∧ tickC9.last_price = some (1001/10) ∧
     tickC9.depth_buy = [] ∧ engC9.position = some Pos.LONG ∧
     engC9.entry_price = some 100 ∧ engC9.cfg.target_pct = 1/1000 ∧
     engC9.cfg.dry_run = true ∧
     warmupShort (applyUpdates engC9 tickC9 (1001/10)).1 = false ∧
     (1001/10 : ℚ) ≥ 1001/10) ∧
    ((onTick engC9 tickC9 now10 gwOk1).2.1 =
       TickOutcome.exitDecision ExitReason.target ∧
     (onTick engC9 tickC9 now10 gwOk1).1.position = none) :=
  ⟨⟨by decide, by decide, by decide, by decide, by decide, by decide, by decide,
    by decide, by decide, by decide, by decide⟩,
   c9_target_exit engC9 tickC9 now10 gwOk1 1 (1001/10) (by decide) (by decide)
     (by decide) (by decide) (by decide) (by decide) (by decide) (by decide)
     (by decide) (by decide) (by decide)⟩

/-- C4 (code bug): the claimed scenario — a live entry whose
`place_cover_order` call raises — is unreachable: `_enter` raises
`TypeError` at line 279 (`self.round_to_tick(raw_trig, tick_size)` passes
three positional arguments to the two-parameter, self-less `round_to_tick`
of line 53) before the dry-run branch, before any state mutation and before
any gateway call.  Evaluated at the failing input (a live entry attempt on
`engC4`) and in general, every entry attempt leaves the engine state — the
position fields, the trade counter and the cooldown timestamp — completely
untouched and raises. -/
theorem c4_enter_type_error :
    enterAction engC4 Side.BUY 100 now10 GwEnter.gwRaise =
      (engC4, some PyError.typeError) ∧
    (∀ (e : Engine) (side : Side) (price : ℚ) (now : DTime) (g : GwEnter),
      enterAction e side price now g = (e, some PyError.typeError)) :=
  ⟨rfl, fun _ _ _ _ _ => rfl⟩

/-- C5: whenever the engine exits while in a position, the local position
state is cleared to FLAT no matter whether the gateway call succeeds, raises,
or cannot be made for lack of a parent order id; the missing-parent-id case is
a caught, logged error. -/
theorem c5_exit_best_effort (e : Engine) (b : Bool) (h : e.position ≠ none) :
    (exitAction e b).1.position = none ∧
    (exitAction e b).1.entry_price = none ∧
    (exitAction e b).1.parent_order_id = none ∧
    (e.cfg.dry_run = false → truthyStrOpt e.parent_order_id = false →
      (exitAction e b).2 = some ExitCallResult.noParentId) := by
  rcases hp : e.position with _ | p
  · exact absurd hp h
  · unfold exitAction
    rw [hp]
    by_cases hd : e.cfg.dry_run
    · simp [hd, clearPosition]
    · rcases hpid : e.parent_order_id with _ | s
      · simp [hd, clearPosition]
      · by_cases hs : s = "" <;> by_cases hb : b <;>
          simp [hd, hs, hb, clearPosition, truthyStrOpt]

/-- C5 witness: the exit-clears theorem applied to a live SHORT engine whose
parent order id is missing. -/
theorem c5_exit_best_effort_witness :
    engC5.position ≠ none ∧
    ((exitAction engC5 false).1.position = none ∧
     (exitAction engC5 false).1.entry_price = none ∧
     (exitAction engC5 false).1.parent_order_id = none ∧
     (engC5.cfg.dry_run = false → truthyStrOpt engC5.parent_order_id = false →
       (exitAction engC5 false).2 = some ExitCallResult.noParentId)) :=
  ⟨by decide, c5_exit_best_effort engC5 false (by decide)⟩

/-- C10: a control-plane square-off in live mode with a stored parent order
id leaves the position fields untouched when the gateway exit raises, and
clears them to FLAT in every other case (dry mode, success, or missing
parent id). -/
theorem c10_squareoff_not_best_effort (e : Engine) (b : Bool)
    (h : e.position ≠ none) :
    (e.cfg.dry_run = false → truthyStrOpt e.parent_order_id = true → b = true →
      (squareOffOne e b).1 = e ∧ (squareOffOne e b).2 = SquareOffResult.gwError) ∧
    (e.cfg.dry_run = true ∨ truthyStrOpt e.parent_order_id = false ∨ b = false →
      (squareOffOne e b).1.position = none ∧
      (squareOffOne e b).1.entry_price = none ∧
      (squareOffOne e b).1.parent_order_id = none) := by
  rcases hp : e.position with _ | p
  · exact absurd hp h
  · unfold squareOffOne
    rw [hp]
    by_cases hd : e.cfg.dry_run
    · simp [hd, clearPosition]
    · rcases hpid : e.parent_order_id with _ | s
      · simp [hd, clearPosition, truthyStrOpt]
      · by_cases hs : s = "" <;> by_cases hb : b <;>
          simp [hd, hs, hb, clearPosition, truthyStrOpt]

/-- C10 witness: the square-off theorem applied to a live LONG engine with a
stored parent id and a raising gateway. -/
theorem c10_squareoff_witness :
    engC10.position ≠ none ∧
    ((engC10.cfg.dry_run = false → truthyStrOpt engC10.parent_order_id = true →
        true = true →
        (squareOffOne engC10 true).1 = engC10 ∧
        (squareOffOne engC10 true).2 = SquareOffResult.gwError) ∧
     (engC10.cfg.dry_run = true ∨ truthyStrOpt engC10.parent_order_id = false ∨
        true = false →
        (squareOffOne engC10 true).1.position = none ∧
        (squareOffOne engC10 true).1.entry_price = none ∧
        (squareOffOne engC10 true).1.parent_order_id = none)) :=
  ⟨by decide, c10_squareoff_not_best_effort engC10 true (by decide)⟩

/-- C6: a config post that changes the effective value of a structural key
(all structural values being integers, as base defaults and coerced overrides
always are) reports `rebuild_required = true`, reports
`applied_live = false`, and leaves every running engine — its live `cfg` dict
and its window capacities — untouched. -/
theorem c6_structural_rebuild (base store : PyMap) (engines : List EngineView)
    (raw : PyMap)
    (hnstore : NodK store) (hnraw : NodK raw)
    (hbase : ∀ k ∈ structuralKeys, ∃ i : ℤ, lookupM base k = some (PyVal.PInt i))
    (hstore : ∀ k ∈ structuralKeys, ∀ v, lookupM store k = some v →
      ∃ i : ℤ, v = PyVal.PInt i)
    (hchange : ∃ k ∈ structuralKeys,
      lookupM (updateM base (updateM store (coerceTypes base raw))) k ≠
      lookupM (effectiveConfig base store) k) :
    (configPost base store engines raw).1.rebuild_required = true ∧
    (configPost base store engines raw).1.applied_live = false ∧
    (configPost base store engines raw).2.2 = engines := by
  obtain ⟨k, hkmem, hne⟩ := hchange
  have hncz : NodK (coerceTypes base raw) := nodK_coerceTypes base raw
  have hnfu : NodK (updateM store (coerceTypes base raw)) := nodK_updateM _ _ hnstore
  cases hc : lookupM (coerceTypes base raw) k with
  | none =>
    exfalso
    apply hne
    have h1 : lookupM (updateM store (coerceTypes base raw)) k = lookupM store k :=
      lookup_updateM_of_none _ _ _ hc
    rw [lookup_updateM _ _ _ hnfu, effectiveConfig, lookup_updateM _ _ _ hnstore, h1]
  | some cv =>
    obtain ⟨i0, hb⟩ := hbase k hkmem
    have hcz := lookup_coerceTypes base raw k hnraw
    rw [hc, hb] at hcz
    have hshape : ∃ iN : ℤ, cv = PyVal.PInt iN := by
      cases hr : lookupM raw k with
      | none =>
        rw [hr] at hcz
        dsimp only at hcz
        exact absurd hcz (by simp)
      | some v =>
        rw [hr] at hcz
        dsimp only at hcz
        unfold coerceVal at hcz
        cases hpi : pyToInt v with
        | none => rw [hpi] at hcz; exact absurd hcz (by simp)
        | some iN => rw [hpi] at hcz; exact ⟨iN, Option.some.inj hcz⟩
    obtain ⟨iN, rfl⟩ := hshape
    have h1 : lookupM (updateM store (coerceTypes base raw)) k = some (PyVal.PInt iN) :=
      lookup_updateM_of_some _ _ _ _ hncz hc
    have hnewk : lookupM (updateM base (updateM store (coerceTypes base raw))) k =
        some (PyVal.PInt iN) :=
      lookup_updateM_of_some _ _ _ _ hnfu h1
    have holdk : ∃ iO : ℤ,
        lookupM (effectiveConfig base store) k = some (PyVal.PInt iO) := by
      rw [effectiveConfig, lookup_updateM _ _ _ hnstore]
      cases hs : lookupM store k with
      | none =>
        refine ⟨i0, ?_⟩
        dsimp only
        exact hb
      | some w =>
        obtain ⟨iO, rfl⟩ := hstore k hkmem w hs
        exact ⟨iO, rfl⟩
    obtain ⟨iO, hOld⟩ := holdk
    have hineq : intRepr iO ≠ intRepr iN := by
      intro hEq
      apply hne
      rw [hnewk, hOld, intRepr_inj _ _ hEq]
    have hanyk : (!(pyStrOpt (lookupM (effectiveConfig base store) k) =
        pyStrOpt (lookupM (updateM base (updateM store (coerceTypes base raw))) k)
        : Bool)) = true := by
      rw [hOld, hnewk]
      simp only [pyStrOpt, pyStr_PInt]
      simp [hineq]
    have hany : (structuralKeys.any (fun k2 =>
        !(pyStrOpt (lookupM (effectiveConfig base store) k2) =
          pyStrOpt (lookupM (updateM base (updateM store (coerceTypes base raw))) k2)
          : Bool))) = true :=
      List.any_eq_true.mpr ⟨k, hkmem, hanyk⟩
    refine ⟨?_, ?_, ?_⟩
    · rw [configPost_rebuild]
      exact hany
    · rw [configPost_applied, hany]
      simp
    · rw [configPost_engines, hany]
      simp

/-- C6 witness: the structural-rebuild theorem applied to the base config, an
empty override store, one running engine, and a post changing
`momentum_window` from 20 to 25. -/
theorem c6_structural_rebuild_witness :
    (NodK ([] : PyMap) ∧ NodK rawC6 ∧
     (∀ k ∈ structuralKeys, ∃ i : ℤ, lookupM baseConfig k = some (PyVal.PInt i)) ∧
     (∀ k ∈ structuralKeys, ∀ v, lookupM ([] : PyMap) k = some v →
        ∃ i : ℤ, v = PyVal.PInt i) ∧
     (∃ k ∈ structuralKeys,
        lookupM (updateM baseConfig (updateM ([] : PyMap) (coerceTypes baseConfig rawC6))) k ≠
        lookupM (effectiveConfig baseConfig ([] : PyMap)) k)) ∧
    ((configPost baseConfig [] [engView0] rawC6).1.rebuild_required = true ∧
     (configPost baseConfig [] [engView0] rawC6).1.applied_live = false ∧
     (configPost baseConfig [] [engView0] rawC6).2.2 = [engView0]) :=
  ⟨⟨by decide, by decide,
    by
      intro k hk
      fin_cases hk
      exacts [⟨20, rfl⟩, ⟨12, rfl⟩, ⟨8, rfl⟩, ⟨3, rfl⟩, ⟨30, rfl⟩, ⟨15, rfl⟩],
    by
      intro k _ v hv
      simp [lookupM] at hv,
    ⟨"momentum_window", by decide,
      by
        rw [show lookupM (updateM baseConfig
              (updateM ([] : PyMap) (coerceTypes baseConfig rawC6)))
              "momentum_window" = some (PyVal.PInt 25) from rfl,
            show lookupM (effectiveConfig baseConfig ([] : PyMap))
              "momentum_window" = some (PyVal.PInt 20) from rfl]
        simp⟩⟩,
   c6_structural_rebuild baseConfig [] [engView0] rawC6 (by decide) (by decide)
     (by
       intro k hk
       fin_cases hk
       exacts [⟨20, rfl⟩, ⟨12, rfl⟩, ⟨8, rfl⟩, ⟨3, rfl⟩, ⟨30, rfl⟩, ⟨15, rfl⟩])
     (by
       intro k _ v hv
       simp [lookupM] at hv)
     ⟨"momentum_window", by decide,
       by
         rw [show lookupM (updateM baseConfig
               (updateM ([] : PyMap) (coerceTypes baseConfig rawC6)))
               "momentum_window" = some (PyVal.PInt 25) from rfl,
             show lookupM (effectiveConfig baseConfig ([] : PyMap))
               "momentum_window" = some (PyVal.PInt 20) from rfl]
         simp⟩⟩

/-- C7: posting a raw override map never fails (`ok = true`); afterwards the
persisted store and the effective config hold the coerced value of every
known key whose value coerces to the type of the base value, while every
unknown key and every key whose coercion fails leaves the store and the
effective config unchanged at that key (it is never persisted or applied). -/
theorem c7_config_roundtrip (base store : PyMap) (engines : List EngineView)
    (raw : PyMap) (k : String) (v : PyVal)
    (hnstore : NodK store) (hnraw : NodK raw)
    (hk : lookupM raw k = some v) :
    (configPost base store engines raw).1.ok = true ∧
    (∀ bv cv, lookupM base k = some bv → coerceVal bv v = some cv →
      lookupM (configPost base store engines raw).2.1 k = some cv ∧
      lookupM (effectiveConfig base (configPost base store engines raw).2.1) k =
        some cv) ∧
    (lookupM base k = none →
      lookupM (configPost base store engines raw).2.1 k = lookupM store k ∧
      lookupM (effectiveConfig base (configPost base store engines raw).2.1) k =
        lookupM (effectiveConfig base store) k) ∧
    (∀ bv, lookupM base k = some bv → coerceVal bv v = none →
      lookupM (configPost base store engines raw).2.1 k = lookupM store k ∧
      lookupM (effectiveConfig base (configPost base store engines raw).2.1) k =
        lookupM (effectiveConfig base store) k) := by
  have hncz : NodK (coerceTypes base raw) := nodK_coerceTypes base raw
  have hnfu : NodK (updateM store (coerceTypes base raw)) := nodK_updateM _ _ hnstore
  have hcz := lookup_coerceTypes base raw k hnraw
  rw [hk] at hcz
  refine ⟨rfl, ?_, ?_, ?_⟩
  · intro bv cv hb hc
    rw [hb] at hcz
    dsimp only at hcz
    rw [hc] at hcz
    have h1 : lookupM (updateM store (coerceTypes base raw)) k = some cv :=
      lookup_updateM_of_some _ _ _ _ hncz hcz
    constructor
    · rw [configPost_store]
      exact h1
    · rw [configPost_store, effectiveConfig]
      exact lookup_updateM_of_some _ _ _ _ hnfu h1
  · intro hb
    rw [hb] at hcz
    dsimp only at hcz
    have h1 : lookupM (updateM store (coerceTypes base raw)) k = lookupM store k :=
      lookup_updateM_of_none _ _ _ hcz
    constructor
    · rw [configPost_store]
      exact h1
    · rw [configPost_store, effectiveConfig, effectiveConfig,
        lookup_updateM _ _ _ hnfu, lookup_updateM _ _ _ hnstore, h1]
  · intro bv hb hc
    rw [hb] at hcz
    dsimp only at hcz
    rw [hc] at hcz
    have h1 : lookupM (updateM store (coerceTypes base raw)) k = lookupM store k :=
      lookup_updateM_of_none _ _ _ hcz
    constructor
    · rw [configPost_store]
      exact h1
    · rw [configPost_store, effectiveConfig, effectiveConfig,
        lookup_updateM _ _ _ hnfu, lookup_updateM _ _ _ hnstore, h1]

/-- C7 witness: the round-trip theorem applied to the base config, an empty
store, and a post carrying a coercible string "25" for the integer key
`momentum_window` (alongside an unknown key and a failing coercion also shown
in `rawC7`). -/
theorem c7_config_roundtrip_witness :
    (NodK ([] : PyMap) ∧ NodK rawC7 ∧
     lookupM rawC7 "momentum_window" = some (PyVal.PStr "25")) ∧
    ((configPost baseConfig [] [] rawC7).1.ok = true ∧
     (∀ bv cv, lookupM baseConfig "momentum_window" = some bv →
        coerceVal bv (PyVal.PStr "25") = some cv →
        lookupM (configPost baseConfig [] [] rawC7).2.1 "momentum_window" = some cv ∧
        lookupM (effectiveConfig baseConfig (configPost baseConfig [] [] rawC7).2.1)
          "momentum_window" = some cv) ∧
     (lookupM baseConfig "momentum_window" = none →
        lookupM (configPost baseConfig [] [] rawC7).2.1 "momentum_window" =
          lookupM ([] : PyMap) "momentum_window" ∧
        lookupM (effectiveConfig baseConfig (configPost baseConfig [] [] rawC7).2.1)
          "momentum_window" =
          lookupM (effectiveConfig baseConfig ([] : PyMap)) "momentum_window") ∧
     (∀ bv, lookupM baseConfig "momentum_window" = some bv →
        coerceVal bv (PyVal.PStr "25") = none →
        lookupM (configPost baseConfig [] [] rawC7).2.1 "momentum_window" =
          lookupM ([] : PyMap) "momentum_window" ∧
        lookupM (effectiveConfig baseConfig (configPost baseConfig [] [] rawC7).2.1)
          "momentum_window" =
          lookupM (effectiveConfig baseConfig ([] : PyMap)) "momentum_window")) :=
  ⟨⟨by decide, by decide, rfl⟩,
   c7_config_roundtrip baseConfig [] [] rawC7 "momentum_window" (PyVal.PStr "25")
     (by decide) (by decide) rfl⟩

end DanV
